import Mathlib

/-!
Verification of the template-driven structured-output extraction engine
(`src/core/llm/template_parser/template_parser.py`,
`src/core/llm/template_parser/table_parser.py`, and the retry controller in
`src/core/llm/llm.py`) against its natural-language specification.

Strings are modelled as `List Char` (Python `str` is a sequence of code
points, as is `List Char`).  All recursion is structural (explicit fuel where
the Python code iterates over text), so every definition evaluates by kernel
reduction on concrete inputs.  Python exceptions that the code catches are
modelled with an error sum (`PyErr`); exceptions that escape `validate` are
modelled with `Except PyRaise`.  Error message strings are modelled
structurally (one `PyErr` constructor per `raise` site) rather than as
rendered text.
-/

set_option maxRecDepth 100000
set_option maxHeartbeats 4000000

/-- Python strings are sequences of code points; we model them as `List Char`. -/
abbrev Str := List Char

/-- Convert a Lean string literal to the `List Char` model. -/
def toChars (s : String) : Str := s.data

/-- The `{` character, written via its code point. -/
def lbrace : Char := Char.ofNat 123

/-- The `}` character, written via its code point. -/
def rbrace : Char := Char.ofNat 125

/-- The `'` character, written via its code point. -/
def squote : Char := Char.ofNat 39

/-- Whitespace characters recognised by Python's `str.strip()` (ASCII part;
the inputs in this development contain no exotic Unicode whitespace). -/
def isPyWs (c : Char) : Bool :=
  c = ' ' || c = '\t' || c = '\n' || c = '\r' || c = Char.ofNat 11 || c = Char.ofNat 12

/-- Python `str.lstrip()` (whitespace variant). -/
def pyLStrip (s : Str) : Str := s.dropWhile isPyWs

/-- Python `str.rstrip()` (whitespace variant). -/
def pyRStrip (s : Str) : Str := (s.reverse.dropWhile isPyWs).reverse

/-- Python `str.strip()` (whitespace variant). -/
def pyStrip (s : Str) : Str := pyRStrip (pyLStrip s)

/-- Strip every leading and trailing occurrence of one character, as Python's
`str.strip('"')` does. -/
def pyStripChar (ch : Char) (s : Str) : Str :=
  ((s.dropWhile (· = ch)).reverse.dropWhile (· = ch)).reverse

/-- ASCII lower-casing, used for the case-insensitive comparisons the source
performs with `str.lower()` / `re.IGNORECASE` (all such tokens in the source
are ASCII: `true`, `think`, ...). -/
def lowerStr (s : Str) : Str := s.map Char.toLower

/-- Does `pat` occur in `s` starting at offset 0? -/
def startsWithAt : Str → Str → Bool
  | _, [] => true
  | [], _ :: _ => false
  | c :: cs, p :: ps => c = p && startsWithAt cs ps

/-- Does `pat` occur in `s` at offset `i`? -/
def occursAt (s pat : Str) (i : Nat) : Bool := startsWithAt (s.drop i) pat

/-- Python `str.find(pat, start)`: least index `i ≥ start` where `pat` occurs,
-1 modelled as `none`.  (For `pat = []` Python returns `start`, matched here.) -/
def findFromAux (s pat : Str) : Nat → Nat → Option Nat
  | _, 0 => none
  | i, fuel + 1 =>
    if occursAt s pat i then some i
    else if i + 1 ≤ s.length then findFromAux s pat (i + 1) fuel
    else none

/-- Python `str.find(pat, start)`. -/
def findFrom (s pat : Str) (start : Nat) : Option Nat :=
  if start ≤ s.length then findFromAux s pat start (s.length + 1 - start) else none

/-- Python `str.find(pat)`. -/
def findSub (s pat : Str) : Option Nat := findFrom s pat 0

/-- Python `str.rfind(pat, start)`: greatest index `i ≥ start` where `pat`
occurs. -/
def rfindFromAux (s pat : Str) (start : Nat) : Nat → Option Nat → Option Nat
  | 0, best => best
  | fuel + 1, best =>
    let i := start + (s.length + 1 - start) - (fuel + 1)
    let best' := if occursAt s pat i then some i else best
    rfindFromAux s pat start fuel best'

/-- Python `str.rfind(pat, start)`. -/
def rfindFrom (s pat : Str) (start : Nat) : Option Nat :=
  if start ≤ s.length then rfindFromAux s pat start (s.length + 1 - start) none else none

/-- Python slice `s[i:j]`. -/
def pySlice (s : Str) (i j : Nat) : Str := (s.take j).drop i

/-- All start indices of non-overlapping occurrences of `pat` in `s`, scanning
left to right and resuming after each match — the semantics of
`re.finditer(re.escape(pat), s)` for a non-empty literal `pat`. -/
def findAllAux (s pat : Str) : Nat → Nat → List Nat
  | _, 0 => []
  | i, fuel + 1 =>
    if occursAt s pat i then
      i :: findAllAux s pat (i + pat.length.max 1) fuel
    else if i < s.length then findAllAux s pat (i + 1) fuel
    else []

/-- Non-overlapping occurrences of a non-empty literal, as `re.finditer`. -/
def findAllNonOverlapping (s pat : Str) : List Nat := findAllAux s pat 0 (s.length + 1)

/-- Every index at which `pat` occurs in `s`, including overlapping
occurrences — the plain "every occurrence" reading. -/
def allOccurrences (s pat : Str) : List Nat :=
  (List.range (s.length + 1)).filter (occursAt s pat)

/-- Case-insensitive `str.find` for the ASCII tag literals of
`strip_think_tags`. -/
def findCIFrom (s pat : Str) (start : Nat) : Option Nat :=
  findFrom (lowerStr s) (lowerStr pat) start

/-- One pass of `re.sub(r'(?is)<think>.*?</think>', '', text)`: repeatedly
drop the leftmost `<think>` ... first following `</think>` region. -/
def removeThinkPairs : Nat → Str → Str
  | 0, s => s
  | fuel + 1, s =>
    match findCIFrom s (toChars "<think>") 0 with
    | none => s
    | some i =>
      match findCIFrom s (toChars "</think>") (i + 7) with
      | none => s
      | some j => s.take i ++ removeThinkPairs fuel (s.drop (j + 8))

/-- Characters matched by the regex class `\s` (ASCII part). -/
def isReWs (c : Char) : Bool :=
  c = ' ' || c = '\t' || c = '\n' || c = '\r' || c = Char.ofNat 11 || c = Char.ofNat 12

/-- Try to match the stray-tag regex `(?i)</?think\s*/?>` at the head of `s`;
return the number of characters consumed. -/
def matchStrayThink (s : Str) : Option Nat :=
  match s with
  | '<' :: rest =>
    let afterSlash : Str × Nat := match rest with
      | '/' :: r2 => (r2, 2)
      | _ => (rest, 1)
    let r2 := afterSlash.1
    if startsWithAt (lowerStr r2) (toChars "think") then
      let r3 := r2.drop 5
      let wsCount := (r3.takeWhile isReWs).length
      let r4 := r3.drop wsCount
      match r4 with
      | '>' :: _ => some (afterSlash.2 + 5 + wsCount + 1)
      | '/' :: '>' :: _ => some (afterSlash.2 + 5 + wsCount + 2)
      | _ => none
    else none
  | _ => none

/-- `re.sub(r'(?i)</?think\s*/?>', '', s)`: scan left to right removing every
stray think tag. -/
def removeStrayThink : Nat → Str → Str
  | 0, s => s
  | _, [] => []
  | fuel + 1, s =>
    match matchStrayThink s with
    | some n => removeStrayThink fuel (s.drop n)
    | none =>
      match s with
      | [] => []
      | c :: rest => c :: removeStrayThink fuel rest

/-- Python `str.splitlines()` restricted to the line terminators occurring in
this development's inputs (`\n`, `\r\n`, `\r`). -/
def pySplitLines : Nat → Str → List Str
  | 0, s => [s]
  | fuel + 1, s =>
    match s with
    | [] => []
    | _ =>
      let isNl (c : Char) : Bool := c = '\n' || c = '\r'
      let line := s.takeWhile (fun c => !(isNl c))
      let rest := s.drop line.length
      match rest with
      | '\r' :: '\n' :: r => line :: pySplitLines fuel r
      | _ :: r => line :: pySplitLines fuel r
      | [] => [line]

/-- `"\n".join(lines)`. -/
def joinNl : List Str → Str
  | [] => []
  | [l] => l
  | l :: ls => l ++ '\n' :: joinNl ls

/-- `strip_think_tags` from `template_parser.py`: remove paired
`<think>...</think>` regions, remove stray think tags, then per-line rstrip,
drop blank lines, join with `\n` and strip. -/
def stripThinkTags (text : Str) : Str :=
  if text.isEmpty then text
  else
    let cleaned := removeThinkPairs (text.length + 1) text
    let cleaned := removeStrayThink (cleaned.length + 1) cleaned
    let lines := (pySplitLines (cleaned.length + 1) cleaned).map pyRStrip
    pyStrip (joinNl (lines.filter (fun l => !l.isEmpty)))

/-- Python runtime values flowing through the parser: the results of slicing,
`eval`-style literal decoding, `json.loads`, bool coercion and pydantic
validation.  Floats are kept as their source literal (no claim computes with
float arithmetic). -/
inductive PyVal where
  | vNone
  | vBool (b : Bool)
  | vInt (n : Int)
  | vFloat (lit : Str)
  | vStr (s : Str)
  | vList (xs : List PyVal)
  | vDict (entries : List (Str × PyVal))

/-- Python `dict` lookup (first, and only, binding of a key). -/
def dictGet {α : Type} (k : Str) : List (Str × α) → Option α
  | [] => none
  | (k', v) :: rest => if k' = k then some v else dictGet k rest

/-- Python `dict` assignment: overwrite in place if the key exists (keeping
its insertion position), otherwise append. -/
def dictSet {α : Type} (k : Str) (v : α) : List (Str × α) → List (Str × α)
  | [] => [(k, v)]
  | (k', v') :: rest => if k' = k then (k, v) :: rest else (k', v') :: dictSet k v rest

/-- Structural description of a pydantic model field annotation (used for the
schema graph: nested `BaseModel` subclasses, `List[...]`, scalars, and
`datetime.date` which pydantic renders as a date-formatted string). -/
inductive PyFieldType where
  | pInt
  | pFloat
  | pStr
  | pBool
  | pDate
  | pDict
  | pAny
  | pList (elem : PyFieldType)
  | pModel (name : Str) (fields : List (Str × PyFieldType))

/-- Field annotations of the `DynamicModel` built by `TemplateParser.__init__`
from the template's `type_map` / `constr` / `model_map` branches. -/
inductive FieldType where
  | fInt
  | fFloat
  | fBool
  | fStr (pattern : Option Str)
  | fListStr
  | fListInt
  | fDict
  | fAny
  | fModel (m : PyFieldType)

/-- Decimal digits to a natural number. -/
def digitsToNat (ds : Str) : Nat :=
  ds.foldl (fun acc c => acc * 10 + (c.toNat - 48)) 0

/-- Python `int(v)` on a string (also pydantic's lax str→int coercion):
strip whitespace, optional sign, then a non-empty digit run.  (Underscore
grouping and other exotic forms accepted by CPython are not exercised by this
repository.) -/
def pyIntOfStr (s : Str) : Option Int :=
  let t := pyStrip s
  let core : Str → Option Int := fun u =>
    if u.isEmpty then none
    else if u.all Char.isDigit then some (Int.ofNat (digitsToNat u)) else none
  match t with
  | '-' :: u => (core u).map (fun n => -n)
  | '+' :: u => core u
  | u => core u

/-- Python `float(v)` on a string, restricted to the `[sign] digits [. digits]`
forms this repository produces; returns the stripped literal on success. -/
def pyFloatOfStr (s : Str) : Option Str :=
  let t := pyStrip s
  let body : Str → Bool := fun u =>
    let ds := u.takeWhile Char.isDigit
    let rest := u.drop ds.length
    if ds.isEmpty then false
    else
      match rest with
      | [] => true
      | '.' :: fs => !fs.isEmpty && fs.all Char.isDigit
      | _ => false
  match t with
  | '-' :: u => if body u then some t else none
  | '+' :: u => if body u then some t else none
  | u => if body u then some t else none

/-- `datetime.date.fromisoformat`-style check: `YYYY-MM-DD` with a plausible
month and day. -/
def isIsoDate (s : Str) : Bool :=
  match s with
  | [y1, y2, y3, y4, '-', m1, m2, '-', d1, d2] =>
    [y1, y2, y3, y4, m1, m2, d1, d2].all Char.isDigit &&
      (let m := digitsToNat [m1, m2]
       let d := digitsToNat [d1, d2]
       1 ≤ m && m ≤ 12 && 1 ≤ d && d ≤ 31)
  | _ => false

/-- JSON whitespace. -/
def jsonSkipWs (s : Str) : Str :=
  s.dropWhile (fun c => c = ' ' || c = '\t' || c = '\n' || c = '\r')

/-- Parse the body of a quoted string (after the opening quote `q`),
handling the escape forms occurring in this development's inputs. -/
def parseQuotedAux (q : Char) : Nat → Str → Option (Str × Str)
  | 0, _ => none
  | fuel + 1, s =>
    match s with
    | [] => none
    | '\\' :: e :: rest =>
      let esc : Option Char :=
        if e = 'n' then some '\n'
        else if e = 't' then some '\t'
        else if e = 'r' then some '\r'
        else if e = 'b' then some (Char.ofNat 8)
        else if e = 'f' then some (Char.ofNat 12)
        else if e = '\\' || e = '/' || e = '"' || e = squote then some e
        else none
      match esc with
      | some c => (parseQuotedAux q fuel rest).map (fun p => (c :: p.1, p.2))
      | none => none
    | c :: rest =>
      if c = q then some ([], rest)
      else (parseQuotedAux q fuel rest).map (fun p => (c :: p.1, p.2))

/-- Parse a JSON number starting at the head of `s` (first char `-` or digit):
integers become `vInt`; a fractional/exponent part keeps the literal. -/
def jsonParseNumber (s : Str) : Option (PyVal × Str) :=
  let (neg, s1) : Bool × Str := match s with
    | '-' :: r => (true, r)
    | r => (false, r)
  let ds := s1.takeWhile Char.isDigit
  if ds.isEmpty then none
  else
    let r1 := s1.drop ds.length
    let (frac, r2) : Str × Str := match r1 with
      | '.' :: fs =>
        let f := fs.takeWhile Char.isDigit
        if f.isEmpty then ([], r1) else ('.' :: f, fs.drop f.length)
      | _ => ([], r1)
    let (expPart, r3) : Str × Str := match r2 with
      | 'e' :: es => expTail 'e' es
      | 'E' :: es => expTail 'E' es
      | _ => ([], r2)
    if frac.isEmpty && expPart.isEmpty then
      let n : Int := Int.ofNat (digitsToNat ds)
      some (PyVal.vInt (if neg then -n else n), r1)
    else
      let lit := (if neg then ['-'] else []) ++ ds ++ frac ++ expPart
      some (PyVal.vFloat lit, r3)
where
  expTail (e : Char) (es : Str) : Str × Str :=
    let (sgn, es1) : Str × Str := match es with
      | '+' :: r => (['+'], r)
      | '-' :: r => (['-'], r)
      | r => ([], r)
    let xs := es1.takeWhile Char.isDigit
    if xs.isEmpty then ([], e :: es)
    else (e :: sgn ++ xs, es1.drop xs.length)

mutual

/-- `json.loads` value parser (recursive descent, fuel-structural). -/
def jsonParseVal : Nat → Str → Option (PyVal × Str)
  | 0, _ => none
  | fuel + 1, s =>
    let s := jsonSkipWs s
    match s with
    | [] => none
    | c :: rest =>
      if c = '"' then
        (parseQuotedAux '"' (rest.length + 1) rest).map (fun p => (PyVal.vStr p.1, p.2))
      else if c = lbrace then jsonParseMembers fuel rest [] true
      else if c = '[' then jsonParseItems fuel rest [] true
      else if startsWithAt s (toChars "true") then some (PyVal.vBool true, s.drop 4)
      else if startsWithAt s (toChars "false") then some (PyVal.vBool false, s.drop 5)
      else if startsWithAt s (toChars "null") then some (PyVal.vNone, s.drop 4)
      else jsonParseNumber s

/-- Members of a JSON object after the opening brace. -/
def jsonParseMembers : Nat → Str → List (Str × PyVal) → Bool → Option (PyVal × Str)
  | 0, _, _, _ => none
  | fuel + 1, s, acc, first =>
    let s := jsonSkipWs s
    match s with
    | [] => none
    | c :: rest =>
      if c = rbrace && first then some (PyVal.vDict acc.reverse, rest)
      else
        let (s', ok) : Str × Bool :=
          if first then (c :: rest, true)
          else if c = ',' then (rest, true)
          else if c = rbrace then (rest, false)
          else (s, false)
        if !ok then
          if c = rbrace then some (PyVal.vDict acc.reverse, rest) else none
        else
          let s'' := jsonSkipWs s'
          match s'' with
          | '"' :: kr =>
            match parseQuotedAux '"' (kr.length + 1) kr with
            | none => none
            | some (k, afterKey) =>
              match jsonSkipWs afterKey with
              | ':' :: vr =>
                match jsonParseVal fuel vr with
                | none => none
                | some (v, afterVal) => jsonParseMembers fuel afterVal ((k, v) :: acc) false
              | _ => none
          | _ => none

/-- Items of a JSON array after the opening bracket. -/
def jsonParseItems : Nat → Str → List PyVal → Bool → Option (PyVal × Str)
  | 0, _, _, _ => none
  | fuel + 1, s, acc, first =>
    let s := jsonSkipWs s
    match s with
    | [] => none
    | c :: rest =>
      if c = ']' then
        if first then some (PyVal.vList acc.reverse, rest) else some (PyVal.vList acc.reverse, rest)
      else
        let s' : Option Str :=
          if first then some (c :: rest)
          else if c = ',' then some rest
          else none
        match s' with
        | none => none
        | some s'' =>
          match jsonParseVal fuel s'' with
          | none => none
          | some (v, afterVal) => jsonParseItems fuel afterVal (v :: acc) false

end

/-- `json.loads`: parse one value and require only whitespace to remain. -/
def jsonLoads (s : Str) : Option PyVal :=
  match jsonParseVal (s.length + 1) s with
  | some (v, rest) => if (jsonSkipWs rest).isEmpty then some v else none
  | none => none

/-- Decimal digits of a natural number. -/
def natReprAux : Nat → Nat → Str
  | 0, _ => []
  | fuel + 1, n =>
    if n < 10 then [Char.ofNat (48 + n)]
    else natReprAux fuel (n / 10) ++ [Char.ofNat (48 + n % 10)]

/-- Decimal representation of a natural number. -/
def natRepr (n : Nat) : Str := natReprAux (n + 1) n

/-- Decimal representation of an integer (Python `str(int)`). -/
def intRepr : Int → Str
  | Int.ofNat n => natRepr n
  | Int.negSucc n => '-' :: natRepr (n + 1)

/-- `json.dumps(..., ensure_ascii=False)` string escaping: backslash, quote
and the common control characters (the only ones arising here). -/
def jsonEscape : Str → Str
  | [] => []
  | c :: rest =>
    (if c = '\\' then ['\\', '\\']
     else if c = '"' then ['\\', '"']
     else if c = '\n' then ['\\', 'n']
     else if c = '\t' then ['\\', 't']
     else if c = '\r' then ['\\', 'r']
     else [c]) ++ jsonEscape rest

/-- Comma-join with `", "` (the default `json.dumps` item separator). -/
def joinCommaSp : List Str → Str
  | [] => []
  | [x] => x
  | x :: xs => x ++ ',' :: ' ' :: joinCommaSp xs

mutual

/-- `json.dumps(v, ensure_ascii=False)` with the default separators. -/
def jsonDumps : PyVal → Str
  | .vNone => toChars "null"
  | .vBool b => if b then toChars "true" else toChars "false"
  | .vInt n => intRepr n
  | .vFloat lit => lit
  | .vStr s => '"' :: jsonEscape s ++ ['"']
  | .vList xs => '[' :: joinCommaSp (jsonDumpsList xs) ++ [']']
  | .vDict es => lbrace :: joinCommaSp (jsonDumpsMembers es) ++ [rbrace]

/-- Serialisations of the items of a JSON array. -/
def jsonDumpsList : List PyVal → List Str
  | [] => []
  | v :: vs => jsonDumps v :: jsonDumpsList vs

/-- Serialisations of the members of a JSON object. -/
def jsonDumpsMembers : List (Str × PyVal) → List Str
  | [] => []
  | (k, v) :: es =>
    ('"' :: jsonEscape k ++ '"' :: ':' :: ' ' :: jsonDumps v) :: jsonDumpsMembers es

end

/-- Python literal whitespace for `eval` input. -/
def pySkipWs (s : Str) : Str := s.dropWhile isPyWs

/-- Is this character forbidden immediately after a bare keyword literal
(`True` / `False` / `None`) for it to stand alone? -/
def isWordTail (s : Str) : Bool :=
  match s with
  | [] => false
  | c :: _ => c.isAlphanum || c = '_'

mutual

/-- A safe model of Python `eval` restricted to literal expressions
(strings in either quote style, signed numbers, `True`/`False`/`None`,
lists, parenthesised tuples and dicts with string-literal keys).  Any other
expression — in particular a bare identifier, which raises `NameError` in the
source — is `none`.  This is the "safe literal decoder" reading of the
source's `eval` fallback. -/
def pyLitVal : Nat → Str → Option (PyVal × Str)
  | 0, _ => none
  | fuel + 1, s =>
    let s := pySkipWs s
    match s with
    | [] => none
    | c :: rest =>
      if c = '"' then
        (parseQuotedAux '"' (rest.length + 1) rest).map (fun p => (PyVal.vStr p.1, p.2))
      else if c = squote then
        (parseQuotedAux squote (rest.length + 1) rest).map (fun p => (PyVal.vStr p.1, p.2))
      else if c = '[' then
        (pyLitSeq fuel rest [] true ']' false).map (fun t => (PyVal.vList t.1, t.2.2))
      else if c = '(' then
        (pyLitSeq fuel rest [] true ')' false).map (fun t =>
          match t.1, t.2.1 with
          | [x], false => (x, t.2.2)
          | xs, _ => (PyVal.vList xs, t.2.2))
      else if c = lbrace then pyLitMembers fuel rest [] true
      else if startsWithAt s (toChars "True") && !isWordTail (s.drop 4) then
        some (PyVal.vBool true, s.drop 4)
      else if startsWithAt s (toChars "False") && !isWordTail (s.drop 5) then
        some (PyVal.vBool false, s.drop 5)
      else if startsWithAt s (toChars "None") && !isWordTail (s.drop 4) then
        some (PyVal.vNone, s.drop 4)
      else if c = '+' then jsonParseNumber rest
      else if c = '-' || c.isDigit then jsonParseNumber s
      else none

/-- Items of a Python list/tuple literal (trailing comma allowed); returns
the items, whether a comma was seen, and the rest. -/
def pyLitSeq : Nat → Str → List PyVal → Bool → Char → Bool → Option (List PyVal × Bool × Str)
  | 0, _, _, _, _, _ => none
  | fuel + 1, s, acc, first, close, sawComma =>
    let s := pySkipWs s
    match s with
    | [] => none
    | c :: rest =>
      if c = close then some (acc.reverse, sawComma, rest)
      else if first then
        match pyLitVal fuel s with
        | none => none
        | some (v, r) => pyLitSeq fuel r (v :: acc) false close sawComma
      else if c = ',' then
        let r1 := pySkipWs rest
        match r1 with
        | c2 :: r2 =>
          if c2 = close then some (acc.reverse, true, r2)
          else
            match pyLitVal fuel r1 with
            | none => none
            | some (v, r) => pyLitSeq fuel r (v :: acc) false close true
        | [] => none
      else none

/-- Members of a Python dict literal (string-literal keys, trailing comma
allowed). -/
def pyLitMembers : Nat → Str → List (Str × PyVal) → Bool → Option (PyVal × Str)
  | 0, _, _, _ => none
  | fuel + 1, s, acc, first =>
    let s := pySkipWs s
    match s with
    | [] => none
    | c :: rest =>
      if c = rbrace then some (PyVal.vDict acc.reverse, rest)
      else
        let entry : Option Str :=
          if first then some s
          else if c = ',' then some rest
          else none
        match entry with
        | none => none
        | some s1 =>
          let s1 := pySkipWs s1
          match s1 with
          | c2 :: _ =>
            if c2 = rbrace then some (PyVal.vDict acc.reverse, s1.drop 1)
            else
              match pyLitVal fuel s1 with
              | some (PyVal.vStr k, afterKey) =>
                match pySkipWs afterKey with
                | ':' :: vr =>
                  match pyLitVal fuel vr with
                  | none => none
                  | some (v, afterVal) => pyLitMembers fuel afterVal ((k, v) :: acc) false
                | _ => none
              | _ => none
          | [] => none

end

/-- Python `eval(val)` restricted to literals: parse one literal and require
only whitespace to remain. -/
def pyEval (s : Str) : Option PyVal :=
  match pyLitVal (s.length + 1) s with
  | some (v, rest) => if (pySkipWs rest).isEmpty then some v else none
  | none => none

/-- Backtracking matcher for the tiny regex subset used by this repository's
`constr` patterns: literals, `.`, `+`, `*` and a final `$` anchor. -/
def reHere : Nat → Str → Str → Bool
  | 0, _, _ => false
  | fuel + 1, pat, s =>
    match pat with
    | [] => true
    | ['$'] => s.isEmpty
    | c :: '*' :: p' =>
      reHere fuel p' s ||
        (match s with
         | [] => false
         | x :: xs => (c = '.' || x = c) && reHere fuel (c :: '*' :: p') xs)
    | c :: '+' :: p' =>
      (match s with
       | [] => false
       | x :: xs => (c = '.' || x = c) && reHere fuel (c :: '*' :: p') xs)
    | c :: p' =>
      (match s with
       | [] => false
       | x :: xs => (c = '.' || x = c) && reHere fuel p' xs)

/-- `re.search`-style matching of a constr pattern against a whole string
(anchored on the left only when the pattern starts with `^`). -/
def reSearch (pat s : Str) : Bool :=
  let fuel := (pat.length + 1) * (s.length + 1) + 1
  match pat with
  | '^' :: p => reHere fuel p s
  | _ => (List.range (s.length + 1)).any (fun i => reHere fuel pat (s.drop i))

/-- Recursion fuel for schema-directed functions; far deeper than any schema
in this repository (Python would hit its recursion limit long before). -/
def schemaFuel : Nat := 200

/-- `jsonschema.validate(instance, schema)` for the schemas pydantic
generates from the modelled field annotations: every declared field is
required and must match its type; extra properties are allowed; `format`
annotations (e.g. dates) are not checked, matching the library's default. -/
def jsonschemaOk : Nat → PyFieldType → PyVal → Bool
  | 0, _, _ => false
  | fuel + 1, ft, v =>
    match ft with
    | .pInt => match v with | .vInt _ => true | _ => false
    | .pFloat => match v with | .vInt _ => true | .vFloat _ => true | _ => false
    | .pStr => match v with | .vStr _ => true | _ => false
    | .pDate => match v with | .vStr _ => true | _ => false
    | .pBool => match v with | .vBool _ => true | _ => false
    | .pDict => match v with | .vDict _ => true | _ => false
    | .pAny => true
    | .pList t =>
      match v with
      | .vList xs => xs.all (jsonschemaOk fuel t)
      | _ => false
    | .pModel _ fs =>
      match v with
      | .vDict d =>
        fs.all (fun kv =>
          match dictGet kv.1 d with
          | some w => jsonschemaOk fuel kv.2 w
          | none => false)
      | _ => false

/-- Pydantic v2 lax str→bool coercion table (case-insensitive). -/
def pydanticBoolOfStr (s : Str) : Option Bool :=
  let l := lowerStr s
  if ["true", "t", "yes", "y", "on", "1"].any (fun w => l = toChars w) then some true
  else if ["false", "f", "no", "n", "off", "0"].any (fun w => l = toChars w) then some false
  else none

/-- Pydantic v2 (lax mode) validation of a value against a field annotation,
returning the value as `model_dump()` would render it: model instances are
represented directly by their dumped field maps. -/
def modelValidate : Nat → PyFieldType → PyVal → Option PyVal
  | 0, _, _ => none
  | fuel + 1, ft, v =>
    match ft with
    | .pInt =>
      match v with
      | .vInt n => some (.vInt n)
      | .vStr s => (pyIntOfStr s).map .vInt
      | _ => none
    | .pFloat =>
      match v with
      | .vFloat l => some (.vFloat l)
      | .vInt n => some (.vFloat (intRepr n ++ ['.', '0']))
      | .vStr s => (pyFloatOfStr s).map .vFloat
      | _ => none
    | .pStr => match v with | .vStr s => some (.vStr s) | _ => none
    | .pDate =>
      match v with
      | .vStr s => if isIsoDate s then some (.vStr s) else none
      | _ => none
    | .pBool =>
      match v with
      | .vBool b => some (.vBool b)
      | .vStr s => (pydanticBoolOfStr s).map .vBool
      | .vInt n => if n = 0 then some (.vBool false) else if n = 1 then some (.vBool true) else none
      | _ => none
    | .pDict => match v with | .vDict d => some (.vDict d) | _ => none
    | .pAny => some v
    | .pList t =>
      match v with
      | .vList xs => (xs.mapM (modelValidate fuel t)).map .vList
      | _ => none
    | .pModel _ fs =>
      match v with
      | .vDict d =>
        (fs.mapM (fun (kv : Str × PyFieldType) =>
          match dictGet kv.1 d with
          | some w => (modelValidate fuel kv.2 w).map (fun w' => (kv.1, w'))
          | none => (none : Option (Str × PyVal)))).map PyVal.vDict
      | _ => none

/-- Pydantic v2 lax validation for a `DynamicModel` field annotation
(the `type_map` / `constr` / `model_map` types of `parse_template`). -/
def coerceField (ft : FieldType) (v : PyVal) : Option PyVal :=
  match ft with
  | .fInt =>
    match v with
    | .vInt n => some (.vInt n)
    | .vStr s => (pyIntOfStr s).map .vInt
    | _ => none
  | .fFloat =>
    match v with
    | .vFloat l => some (.vFloat l)
    | .vInt n => some (.vFloat (intRepr n ++ ['.', '0']))
    | .vStr s => (pyFloatOfStr s).map .vFloat
    | _ => none
  | .fBool =>
    match v with
    | .vBool b => some (.vBool b)
    | .vStr s => (pydanticBoolOfStr s).map .vBool
    | .vInt n => if n = 0 then some (.vBool false) else if n = 1 then some (.vBool true) else none
    | _ => none
  | .fStr pat =>
    match v with
    | .vStr s =>
      match pat with
      | none => some (.vStr s)
      | some p => if reSearch p s then some (.vStr s) else none
    | _ => none
  | .fListStr =>
    match v with
    | .vList xs => if xs.all (fun x => match x with | .vStr _ => true | _ => false) then some (.vList xs) else none
    | _ => none
  | .fListInt =>
    match v with
    | .vList xs =>
      (xs.mapM (fun (x : PyVal) =>
        match x with
        | .vInt n => some (PyVal.vInt n)
        | .vStr s => (pyIntOfStr s).map PyVal.vInt
        | _ => none)).map PyVal.vList
    | _ => none
  | .fDict => match v with | .vDict d => some (.vDict d) | _ => none
  | .fAny => some v
  | .fModel m => match v with | .vDict d => modelValidate schemaFuel m (.vDict d) | _ => none

/-- ASCII approximation of the regex class `\w` (all placeholder names in
this repository are ASCII). -/
def isWordChar (c : Char) : Bool := c.isAlphanum || c = '_'

/-- Require a closing brace; assemble the placeholder groups. -/
def phClose (name typ : Str) (rgx mdl : Option Str) (r : Str) :
    Option (Str × Str × Option Str × Option Str × Str) :=
  match r with
  | c :: rr => if c = rbrace then some (name, typ, rgx, mdl, rr) else none
  | [] => none

/-- The optional `(?::(\w+))?` model-name group (present preferred), then the
closing brace. -/
def phModelClose (name typ : Str) (rgx : Option Str) (r : Str) :
    Option (Str × Str × Option Str × Option Str × Str) :=
  (match r with
   | ':' :: mr =>
     let mn := mr.takeWhile isWordChar
     if mn.isEmpty then none
     else phClose name typ rgx (some mn) (mr.drop mn.length)
   | _ => none) <|> phClose name typ rgx none r

/-- Match the placeholder regex
`\{(\w+):(\w+(\[[^\]]+\])?)(:regex=([^\}:]+))?(?::(\w+))?\}` at the head of
`t`, returning `(name, type, regex?, modelName?, rest)` with the regex
engine's preference order for the optional groups. -/
def placeholderAt (t : Str) : Option (Str × Str × Option Str × Option Str × Str) :=
  match t with
  | c :: rest =>
    if c = lbrace then
      let name := rest.takeWhile isWordChar
      if name.isEmpty then none
      else
        match rest.drop name.length with
        | ':' :: r2 =>
          let tb := r2.takeWhile isWordChar
          if tb.isEmpty then none
          else
            let r3 := r2.drop tb.length
            let bracketed : Str × Str :=
              match r3 with
              | '[' :: br =>
                let content := br.takeWhile (fun c => c ≠ ']')
                if content.isEmpty then (tb, r3)
                else
                  match br.drop content.length with
                  | ']' :: rr => (tb ++ '[' :: content ++ [']'], rr)
                  | _ => (tb, r3)
              | _ => (tb, r3)
            let typ := bracketed.1
            let r4 := bracketed.2
            let withRegex : Option (Str × Str × Option Str × Option Str × Str) :=
              if startsWithAt r4 (toChars ":regex=") then
                let pat := (r4.drop 7).takeWhile (fun c => c ≠ rbrace && c ≠ ':')
                if pat.isEmpty then none
                else phModelClose name typ (some pat) (r4.drop (7 + pat.length))
              else none
            withRegex <|> phModelClose name typ none r4
        | _ => none
    else none
  | [] => none

/-- The `type_map` of `parse_template`. -/
def typeMapLookup (typ : Str) : Option FieldType :=
  if typ = toChars "int" then some .fInt
  else if typ = toChars "float" then some .fFloat
  else if typ = toChars "str" then some (.fStr none)
  else if typ = toChars "bool" then some .fBool
  else if typ = toChars "list[str]" then some .fListStr
  else if typ = toChars "list[int]" then some .fListInt
  else if typ = toChars "dict" then some .fDict
  else if typ = toChars "json" then some .fAny
  else if typ = toChars "any" then some .fAny
  else none

/-- Field-annotation selection of `parse_template`: `constr` for `str` with a
regex, the mapped model class for `json:<Name>` when registered, the
`type_map` entry otherwise, and a plain `str` fallback for unknown tags. -/
def fieldTypeOf (typ : Str) (rgx mdl : Option Str) (mm : List (Str × PyFieldType)) : FieldType :=
  if typ = toChars "str" && rgx.isSome then .fStr rgx
  else
    match (match mdl with
           | some mn => if typ = toChars "json" then dictGet mn mm else none
           | none => none) with
    | some m => .fModel m
    | none =>
      match typeMapLookup typ with
      | some ft => ft
      | none => .fStr none

/-- The scanning loop of `parse_template`: `re.finditer` over the placeholder
regex, building the literal `segments` and the `fields` dict (dict-update
semantics: a duplicate name overwrites in place). -/
def scanTemplate (mm : List (Str × PyFieldType)) :
    Nat → Str → Str → List Str → List (Str × FieldType) →
    List (Str × FieldType) × List Str
  | 0, s, cur, segs, fields => (fields, segs ++ [cur ++ s])
  | _ + 1, [], cur, segs, fields => (fields, segs ++ [cur])
  | fuel + 1, s@(c :: rest), cur, segs, fields =>
    match placeholderAt s with
    | some (name, typ, rgx, mdl, remaining) =>
      scanTemplate mm fuel remaining [] (segs ++ [cur])
        (dictSet name (fieldTypeOf typ rgx mdl mm) fields)
    | none => scanTemplate mm fuel rest (cur ++ [c]) segs fields

/-- `TemplateParser.parse_template`: literal segments interleaved with the
field table. -/
def parse_template (template : Str) (mm : List (Str × PyFieldType)) :
    List (Str × FieldType) × List Str :=
  scanTemplate mm (template.length + 1) template [] [] []

/-- The compiled state of a `TemplateParser` instance (`__init__` stores the
template, the model map, and the `parse_template` output; `DynamicModel` is
represented by the `fields` table itself). -/
structure TemplateParser where
  template : Str
  modelMap : List (Str × PyFieldType)
  fields : List (Str × FieldType)
  segments : List Str

/-- `TemplateParser.__init__`. -/
def TemplateParser.build (template : Str) (mm : List (Str × PyFieldType)) : TemplateParser :=
  { template := template
    modelMap := mm
    fields := (parse_template template mm).1
    segments := (parse_template template mm).2 }

/-- The `ValueError`s raised (and caught) by `strict_parse_llm_output` /
`validate`, one constructor per raise site; pydantic's `ValidationError` and
the anchor-not-found result are included since `validate` folds them into the
same returned error data. -/
inductive PyErr where
  | expectedLiteral (seg : Str)
  | intNotFound (name : Str)
  | floatNotFound (name : Str)
  | boolNotFound (name : Str)
  | listNotFound (name : Str)
  | jsonNotFound (name : Str)
  | missingSegEnd (seg : Str)
  | endIntInvalid (name : Str)
  | endFloatInvalid (name : Str)
  | endListInvalid (name : Str)
  | schemaMismatch (name : Str)
  | validationError (name : Str)
  | anchorNotFound (startSeg endSeg : Str)

/-- Exceptions that escape `validate` (not caught by its
`except (ValidationError, ValueError)` handlers). -/
inductive PyRaise where
  | unboundLocalError
  | keyError
  | typeError
  | attributeError
  | valueError

/-- First suffix position (from `i`) whose suffix satisfies `f`. -/
def firstIdxWhere (f : Str → Bool) : Str → Nat → Option Nat
  | [], i => if f [] then some i else none
  | s@(_ :: rest), i => if f s then some i else firstIdxWhere f rest (i + 1)

/-- `re.search(r"\d+", ·)` viability at the head of a suffix. -/
def digitHere (t : Str) : Bool :=
  match t with
  | c :: _ => c.isDigit
  | [] => false

/-- The boolean-token alternatives of the source regex, in alternation order. -/
def boolTokens : List Str :=
  [toChars "true", toChars "false", toChars "True", toChars "False", toChars "1", toChars "0"]

/-- `re.search(r"(true|false|True|False|1|0)", ·)` viability at a suffix head. -/
def boolTokenHere (t : Str) : Bool := boolTokens.any (startsWithAt t)

/-- `re.search(r"\[.*?\]", ·)` viability at a suffix head (`.` does not match
a newline: the closing bracket must occur before one). -/
def listTokenHere (t : Str) : Bool :=
  match t with
  | '[' :: r => (r.takeWhile (fun c => c ≠ '\n')).any (fun c => c = ']')
  | _ => false

/-- `re.search(r"\{.*\}", ·, re.DOTALL)` viability at a suffix head. -/
def braceTokenHere (t : Str) : Bool :=
  match t with
  | c :: r => c = lbrace && r.any (fun x => x = rbrace)
  | _ => false

/-- The source's bracket-counting loop: index of the bracket closing the
group opened by the (guaranteed) leading open bracket. -/
def bracketCloseIdx (openC closeC : Char) : Str → Nat → Nat → Option Nat
  | [], _, _ => none
  | c :: rest, i, count =>
    if c = openC then bracketCloseIdx openC closeC rest (i + 1) (count + 1)
    else if c = closeC then
      if count = 1 then some i else bracketCloseIdx openC closeC rest (i + 1) (count - 1)
    else bracketCloseIdx openC closeC rest (i + 1) count

/-- `re.match(r"^(\d+(\.\d+)?)", ·)`: the greedy numeric head, if any. -/
def floatHead (t : Str) : Option Str :=
  let ds := t.takeWhile Char.isDigit
  if ds.isEmpty then none
  else
    match t.drop ds.length with
    | '.' :: fs =>
      let f2 := fs.takeWhile Char.isDigit
      if f2.isEmpty then some ds else some (ds ++ '.' :: f2)
    | _ => some ds

/-- `re.match(r"^(true|false|True|False|1|0)", ·)` with alternation order. -/
def matchBoolHead (t : Str) : Option Str :=
  boolTokens.findSome? (fun tok => if startsWithAt t tok then some tok else none)

/-- `re.match(r"^(\[.*?\])", ·)`: the non-greedy bracketed head (no newline
before the first closing bracket). -/
def listHead (t : Str) : Option Str :=
  match t with
  | '[' :: r =>
    let inner := r.takeWhile (fun c => c ≠ ']' && c ≠ '\n')
    match r.drop inner.length with
    | ']' :: _ => some ('[' :: inner ++ [']'])
    | _ => none
  | _ => none

/-- Is this annotation handled by the `dict / Any / BaseModel` branches? -/
def isJsonLike : FieldType → Bool
  | .fDict => true
  | .fAny => true
  | .fModel _ => true
  | _ => false

/-- Is this annotation `List[str]` or `List[int]`? -/
def isListType : FieldType → Bool
  | .fListStr => true
  | .fListInt => true
  | _ => false

/-- The mutable state of the extraction loop of `strict_parse_llm_output`:
the cursor `idx`, the Python local `value` (which lingers across loop
iterations — `none` models it being unbound), and the `result` entries so
far. -/
structure ExtState where
  idx : Nat
  lastVal : Option Str
  acc : List (Str × Str)

/-- One iteration of the extraction loop of `strict_parse_llm_output` for
field `name` between literals `segStart` and `segEnd`.  Mirrors the source:
locate the value start when `segStart` is empty; delimit the value by
balanced brackets / the following literal / type-specific trailing rules;
`result[name] = value` at the end (raising `UnboundLocalError` when no branch
assigned `value` and no earlier iteration left one behind). -/
def extractOne (matched segStart segEnd name : Str) (ft : FieldType) (st : ExtState) :
    Except PyRaise (Except PyErr ExtState) :=
  let finish : Option Str → Nat → Except PyRaise (Except PyErr ExtState) := fun v? idx2 =>
    match v? with
    | some v => .ok (.ok ⟨idx2, some v, st.acc ++ [(name, v)]⟩)
    | none => .error .unboundLocalError
  let phase1 : Except PyErr Nat :=
    if !segStart.isEmpty then
      if occursAt matched segStart st.idx then .ok (st.idx + segStart.length)
      else .error (.expectedLiteral segStart)
    else
      let remain := matched.drop st.idx
      match ft with
      | .fInt =>
        match firstIdxWhere digitHere remain 0 with
        | some k => .ok (st.idx + k)
        | none => .error (.intNotFound name)
      | .fFloat =>
        match firstIdxWhere digitHere remain 0 with
        | some k => .ok (st.idx + k)
        | none => .error (.floatNotFound name)
      | .fBool =>
        match firstIdxWhere boolTokenHere remain 0 with
        | some k => .ok (st.idx + k)
        | none => .error (.boolNotFound name)
      | .fListStr =>
        match firstIdxWhere listTokenHere remain 0 with
        | some k => .ok (st.idx + k)
        | none => .error (.listNotFound name)
      | .fListInt =>
        match firstIdxWhere listTokenHere remain 0 with
        | some k => .ok (st.idx + k)
        | none => .error (.listNotFound name)
      | .fStr _ => .ok st.idx
      | _ =>
        match firstIdxWhere braceTokenHere remain 0 with
        | some k => .ok (st.idx + k)
        | none => .error (.jsonNotFound name)
  match phase1 with
  | .error e => .ok (.error e)
  | .ok idx1 =>
    let remain := matched.drop idx1
    if !segEnd.isEmpty then
      if isJsonLike ft && startsWithAt remain [lbrace] then
        match bracketCloseIdx lbrace rbrace remain 0 0 with
        | some i => finish (some (pyStrip (remain.take (i + 1)))) (idx1 + i + 1)
        | none =>
          match findSub remain segEnd with
          | none => .ok (.error (.missingSegEnd segEnd))
          | some np => finish (some (pyStrip (remain.take np))) (idx1 + np)
      else if isListType ft && startsWithAt remain ['['] then
        match bracketCloseIdx '[' ']' remain 0 0 with
        | some i => finish (some (pyStrip (remain.take (i + 1)))) (idx1 + i + 1)
        | none =>
          match findSub remain segEnd with
          | none => .ok (.error (.missingSegEnd segEnd))
          | some np => finish (some (pyStrip (remain.take np))) (idx1 + np)
      else
        match findSub remain segEnd with
        | none => .ok (.error (.missingSegEnd segEnd))
        | some np => finish (some (pyStrip (remain.take np))) (idx1 + np)
    else
      match ft with
      | .fInt =>
        let ds := remain.takeWhile Char.isDigit
        if ds.isEmpty then .ok (.error (.endIntInvalid name))
        else finish (some ds) (idx1 + ds.length)
      | .fFloat =>
        match floatHead remain with
        | some lit => finish (some lit) (idx1 + lit.length)
        | none => .ok (.error (.endFloatInvalid name))
      | .fBool =>
        match matchBoolHead remain with
        | some tok => finish (some tok) (idx1 + tok.length)
        | none => finish (some (pyStrip remain)) matched.length
      | .fListStr =>
        match listHead remain with
        | some lit => finish (some lit) (idx1 + lit.length)
        | none => .ok (.error (.endListInvalid name))
      | .fListInt =>
        match listHead remain with
        | some lit => finish (some lit) (idx1 + lit.length)
        | none => .ok (.error (.endListInvalid name))
      | .fStr _ => finish (some (pyStrip remain)) matched.length
      | _ =>
        if startsWithAt remain [lbrace] then
          match bracketCloseIdx lbrace rbrace remain 0 0 with
          | some i => finish (some (remain.take (i + 1))) (idx1 + i + 1)
          | none => finish (some (pyStrip remain)) matched.length
        else
          finish st.lastVal idx1

/-- The extraction loop of `strict_parse_llm_output` over all fields. -/
def extractLoop (segments : List Str) (matched : Str) :
    List (Str × FieldType) → Nat → ExtState → Except PyRaise (Except PyErr (List (Str × Str)))
  | [], _, st => .ok (.ok st.acc)
  | (name, ft) :: rest, i, st =>
    match extractOne matched (segments.getD i []) (segments.getD (i + 1) []) name ft st with
    | .error r => .error r
    | .ok (.error e) => .ok (.error e)
    | .ok (.ok st') => extractLoop segments matched rest (i + 1) st'

/-- The conversion loop of `strict_parse_llm_output`: nested-model JSON
decode + `jsonschema` + `model_validate` (any failure raised as the
field-qualified `ValueError`), permissive bool conversion, `eval`-style
list/dict decoding with raw fallback, and JSON decoding with raw fallback
for `Any`. -/
def convertLoop : List (Str × FieldType) → List (Str × Str) → Except PyErr (List (Str × PyVal))
  | [], _ => .ok []
  | (name, ft) :: rest, ext =>
    let val := (dictGet name ext).getD []
    let conv : Except PyErr PyVal :=
      match ft with
      | .fModel m =>
        match jsonLoads val with
        | none => .error (.schemaMismatch name)
        | some j =>
          if jsonschemaOk schemaFuel m j then
            match modelValidate schemaFuel m j with
            | some inst => .ok inst
            | none => .error (.schemaMismatch name)
          else .error (.schemaMismatch name)
      | .fBool =>
        let l := lowerStr val
        if l = toChars "true" || l = toChars "1" then .ok (.vBool true)
        else if l = toChars "false" || l = toChars "0" then .ok (.vBool false)
        else .ok (.vStr val)
      | .fListStr => .ok ((pyEval val).getD (.vStr val))
      | .fListInt => .ok ((pyEval val).getD (.vStr val))
      | .fDict => .ok ((pyEval val).getD (.vStr val))
      | .fAny => .ok ((jsonLoads val).getD (.vStr val))
      | _ => .ok (.vStr val)
    match conv with
    | .error e => .error e
    | .ok v => (convertLoop rest ext).map (fun ws => (name, v) :: ws)

/-- `TemplateParser.strict_parse_llm_output`. -/
def strict_parse_llm_output (p : TemplateParser) (matched : Str) :
    Except PyRaise (Except PyErr (List (Str × PyVal))) :=
  match extractLoop p.segments matched p.fields 0 ⟨0, none, []⟩ with
  | .error r => .error r
  | .ok (.error e) => .ok (.error e)
  | .ok (.ok ext) => .ok (convertLoop p.fields ext)

/-- `DynamicModel(**data)` then `model_dump()`: validate every declared field
with pydantic's lax coercion; the result keeps declaration order. -/
def dynValidate : List (Str × FieldType) → List (Str × PyVal) → Except PyErr (List (Str × PyVal))
  | [], _ => .ok []
  | (name, ft) :: rest, data =>
    match dictGet name data with
    | none => .error (.validationError name)
    | some v =>
      match coerceField ft v with
      | none => .error (.validationError name)
      | some w => (dynValidate rest data).map (fun ws => (name, w) :: ws)

/-- One full parse attempt on a candidate window:
`strict_parse_llm_output` followed by `DynamicModel` validation. -/
def tryParseAttempt (p : TemplateParser) (cand : Str) :
    Except PyRaise (Except PyErr (List (Str × PyVal))) :=
  match strict_parse_llm_output p cand with
  | .error r => .error r
  | .ok (.error e) => .ok (.error e)
  | .ok (.ok data) => .ok (dynValidate p.fields data)

/-- The `data` payload of a `validate` result: the validated mapping on
success, the stringified error otherwise (modelled structurally). -/
inductive VData where
  | fields (d : List (Str × PyVal))
  | err (e : PyErr)

/-- The result object returned by `validate`. -/
structure TPResult where
  success : Bool
  data : VData
  matched : Option Str

/-- The candidate window of `validate` for one occurrence of the leading
literal at offset `o` (source lines 488-495): when the trailing literal is
non-empty, `rfind` its last occurrence at or after `o` (no occurrence: the
start position is skipped); when it is empty, the window runs to end of
input. -/
def candidateAt (out endS : Str) (o : Nat) : Option Str :=
  if endS.isEmpty then some (out.drop o)
  else
    match rfindFrom out endS o with
    | none => none
    | some e => some (pySlice out o (e + endS.length))

/-- The anchor-candidate loop of `validate`: try each occurrence of the
leading literal; skip ones with no trailing-literal occurrence at or after
them; return the first success, else the last attempt's error and window,
else anchor-not-found. -/
def validateLoop (p : TemplateParser) (out startS endS : Str) :
    List Nat → Option PyErr → Option Str → Except PyRaise TPResult
  | [], lastErr, lastCand =>
    match lastErr with
    | some e => .ok ⟨false, .err e, lastCand⟩
    | none => .ok ⟨false, .err (.anchorNotFound startS endS), none⟩
  | o :: rest, lastErr, lastCand =>
    match candidateAt out endS o with
    | none => validateLoop p out startS endS rest lastErr lastCand
    | some cand =>
      match tryParseAttempt p cand with
      | .error r => .error r
      | .ok (.ok d) => .ok ⟨true, .fields d, some cand⟩
      | .ok (.error e) => validateLoop p out startS endS rest (some e) (some cand)

/-- `TemplateParser.validate`. -/
def TemplateParser.validate (p : TemplateParser) (raw : Str) : Except PyRaise TPResult :=
  let out := stripThinkTags raw
  let startS := p.segments.headD []
  let endS := p.segments.getLastD []
  if startS.isEmpty then
    match tryParseAttempt p out with
    | .error r => .error r
    | .ok (.ok d) => .ok ⟨true, .fields d, some out⟩
    | .ok (.error e) => .ok ⟨false, .err e, some out⟩
  else
    validateLoop p out startS endS (findAllNonOverlapping out startS) none none

/-- `re.findall(r"\x7b([^\x7b\x7d]+)\x7d", s)`: the contents of every
brace-delimited group with no nested braces, scanning left to right. -/
def braceGroups : Nat → Str → List Str
  | 0, _ => []
  | _ + 1, [] => []
  | fuel + 1, c :: rest =>
    if c = lbrace then
      let content := rest.takeWhile (fun x => x ≠ lbrace && x ≠ rbrace)
      if content.isEmpty then braceGroups fuel rest
      else
        match rest.drop content.length with
        | x :: rr => if x = rbrace then content :: braceGroups fuel rr else braceGroups fuel rest
        | [] => braceGroups fuel rest
    else braceGroups fuel rest

/-- A quoted item (`"[^"]*"` or the single-quote variant) at the head of `s`. -/
def rowQuoted (q : Char) (s : Str) : Option (Str × Str) :=
  match s with
  | c :: rest =>
    if c = q then
      let content := rest.takeWhile (fun x => x ≠ q)
      match rest.drop content.length with
      | x :: rr => if x = q then some (q :: content ++ [q], rr) else none
      | [] => none
    else none
  | [] => none

/-- `re.findall(r'"[^"]*"|\x27[^\x27]*\x27|[^,]+', m)`: row items — quoted
fields (commas allowed inside) or runs of non-commas. -/
def rowItems : Nat → Str → List Str
  | 0, _ => []
  | _ + 1, [] => []
  | fuel + 1, s@(c :: rest) =>
    match rowQuoted '"' s <|> rowQuoted squote s with
    | some (item, rr) => item :: rowItems fuel rr
    | none =>
      if c = ',' then rowItems fuel rest
      else
        let run := s.takeWhile (fun x => x ≠ ',')
        run :: rowItems fuel (s.drop run.length)

/-- Per-position coercion of a value-only row item: `int()` / `float()` for
the declared numeric types, the raw string otherwise. -/
def coerceRowItem (ft : PyFieldType) (v : Str) : Option PyVal :=
  match ft with
  | .pInt => (pyIntOfStr v).map .vInt
  | .pFloat => (pyFloatOfStr v).map (fun _ => .vFloat (pyStrip v))
  | _ => some (.vStr v)

/-- Build one row record from the stripped items, in schema field order. -/
def rowFromItems : List (Str × PyFieldType) → List Str → Option (List (Str × PyVal))
  | [], _ => some []
  | (h, ft) :: rest, v :: vs =>
    match coerceRowItem ft v with
    | some w => (rowFromItems rest vs).map (fun ws => (h, w) :: ws)
    | none => none
  | _ :: _, [] => none

/-- The compiled state of a `TableParser` instance. -/
structure TableParser where
  tableName : Str
  tableFields : List (Str × PyFieldType)
  valueOnly : Bool
  skipOnTypeError : Bool
  template : Str
  modelMap : List (Str × PyFieldType)
  tableField : Option Str
  rowModel : Option PyFieldType
  parser : TemplateParser

/-- `TableParser.__init__`: build the `\x7btable:json:<Name>\x7d` template,
scan the table model's fields for list-of-model fields (each scan hit
overwrites `table_field` / `row_model`; plain nested models only extend the
model map), and compile the inner `TemplateParser`.  No check rejects a model
with zero (or several) list-of-model fields. -/
def TableParser.build (nm : Str) (fs : List (Str × PyFieldType)) (valueOnly skipOnTypeError : Bool) :
    TableParser :=
  let template := lbrace :: (toChars "table:json:" ++ nm) ++ [rbrace]
  let start : List (Str × PyFieldType) × Option Str × Option PyFieldType :=
    ([(nm, .pModel nm fs)], none, none)
  let scan := fs.foldl
    (fun (st : List (Str × PyFieldType) × Option Str × Option PyFieldType) kv =>
      match kv.2 with
      | .pList (.pModel en efs) =>
        (dictSet en (.pModel en efs) st.1, some kv.1, some (.pModel en efs))
      | .pModel en efs => (dictSet en (.pModel en efs) st.1, st.2.1, st.2.2)
      | _ => st)
    start
  { tableName := nm
    tableFields := fs
    valueOnly := valueOnly
    skipOnTypeError := skipOnTypeError
    template := template
    modelMap := scan.1
    tableField := scan.2.1
    rowModel := scan.2.2
    parser := TemplateParser.build template scan.1 }

/-- `TableParser._parse_value_only`: collect the single-depth brace groups,
split each into items, strip quoting, drop rows of mismatched arity, coerce
per the row schema (skipping or raising on coercion failure per the
`skip_on_type_error` flag). -/
def valueOnlyRows (rfs : List (Str × PyFieldType)) (skip : Bool) :
    List Str → Except PyRaise (List PyVal)
  | [] => .ok []
  | m :: ms =>
    let headers := rfs.map Prod.fst
    let items0 := (rowItems (m.length + 1) m).map
      (fun x => pyStripChar squote (pyStripChar '"' (pyStrip x)))
    let items :=
      if items0.length > headers.length && items0.getLast? = some ([] : Str)
      then items0.dropLast else items0
    if items.length ≠ headers.length then valueOnlyRows rfs skip ms
    else
      match rowFromItems rfs items with
      | some row => (valueOnlyRows rfs skip ms).map (fun rest => PyVal.vDict row :: rest)
      | none => if skip then valueOnlyRows rfs skip ms else .error .valueError

/-- `TableParser._parse_value_only` (row scan in `valueOnlyRows`). -/
def TableParser.parseValueOnly (tp : TableParser) (s : Str) : Except PyRaise (List PyVal) :=
  match tp.rowModel with
  | some (.pModel _ rfs) =>
    valueOnlyRows rfs tp.skipOnTypeError (braceGroups (s.length + 1) s)
  | _ => .error .attributeError

/-- `TableParser.validate`: in value-only mode re-encode the recovered rows
as JSON under the table field and validate that; otherwise validate the raw
text directly. -/
def TableParser.validate (tp : TableParser) (raw : Str) : Except PyRaise TPResult :=
  let s := stripThinkTags raw
  if tp.valueOnly then
    match tp.parseValueOnly s with
    | .error r => .error r
    | .ok rows =>
      let key := tp.tableField.getD (toChars "null")
      tp.parser.validate (jsonDumps (.vDict [(key, .vList rows)]))
  else tp.parser.validate s

/-- `TableParser.get_rows`: empty list when validation failed, otherwise
`result["data"]["table"][self.table_field]` (a missing key raises
`KeyError`, indexing a non-mapping raises `TypeError`). -/
def TableParser.get_rows (tp : TableParser) (raw : Str) : Except PyRaise PyVal :=
  match tp.validate raw with
  | .error r => .error r
  | .ok r =>
    if !r.success then .ok (.vList [])
    else
      match r.data with
      | .fields d =>
        match dictGet (toChars "table") d with
        | some (.vDict td) =>
          match tp.tableField with
          | some f =>
            match dictGet f td with
            | some v => .ok v
            | none => .error .keyError
          | none => .error .keyError
        | some _ => .error .typeError
        | none => .error .keyError
      | .err _ => .error .typeError

/-- The retry loop of `ChatModel._parse_template_output`
(`while not parsed["success"] and retry_count < max_retry`): `remaining` is
`max_retry - retry_count`, `k` the index of the next provider invocation,
and the pair returned is the final parse result with the total number of
provider invocations so far. -/
def parseTemplateRetry (v : Str → Except PyRaise TPResult) (invoke : Nat → Str) :
    Nat → Nat → TPResult → Except PyRaise (TPResult × Nat)
  | 0, k, parsed => .ok (parsed, k)
  | remaining + 1, k, parsed =>
    if parsed.success then .ok (parsed, k)
    else
      match v (invoke k) with
      | .error r => .error r
      | .ok p => parseTemplateRetry v invoke remaining (k + 1) p

/-- `ChatModel.call` with a parser and no tool caller: one initial provider
invocation, then `_parse_template_output`'s retry loop; `invoke k` is the
provider stub's output on its `k`-th invocation (the code passes the same
prompt each time, so a stub is exactly a function of the invocation count). -/
def chatModelCall (v : Str → Except PyRaise TPResult) (invoke : Nat → Str) (maxRetry : Nat) :
    Except PyRaise (TPResult × Nat) :=
  match v (invoke 0) with
  | .error r => .error r
  | .ok p => parseTemplateRetry v invoke maxRetry 1 p

/-- Split a string on a separator character. -/
def splitOn (sep : Char) : Str → List Str
  | [] => [[]]
  | c :: rest =>
    let parts := splitOn sep rest
    if c = sep then [] :: parts
    else
      match parts with
      | p :: ps => (c :: p) :: ps
      | [] => [[c]]

/-- JSON-pointer walk of `resolve_ref`. -/
def resolveRefWalk : List Str → PyVal → Option PyVal
  | [], node => some node
  | p :: ps, node =>
    match node with
    | .vDict nd =>
      match dictGet p nd with
      | some n => resolveRefWalk ps n
      | none => none
    | _ => none

/-- `resolve_ref(sch, root)` of `_schema_to_example`, as an `Option`
(`some` = a different node was reached; Python returns the original node
itself on failure and the caller compares identity). -/
def resolveRef (sch root : PyVal) : Option PyVal :=
  match sch with
  | .vDict d =>
    match dictGet (toChars "$ref") d with
    | some (.vStr ref) =>
      if startsWithAt ref (toChars "#/") then resolveRefWalk (splitOn '/' (ref.drop 2)) root
      else none
    | _ => none
  | _ => none

/-- The `"type"` entry of a schema node, when it is a string. -/
def schTypeOf (v : PyVal) : Option Str :=
  match v with
  | .vDict d =>
    match dictGet (toChars "type") d with
    | some (.vStr t) => some t
    | _ => none
  | _ => none

/-- Does a schema node (as a dict) have the given key? -/
def schHas (key : String) (v : PyVal) : Bool :=
  match v with
  | .vDict d => (dictGet (toChars key) d).isSome
  | _ => false

/-- The first-present union construct (`anyOf`/`oneOf`/`allOf`) of a node. -/
def schUnion (d : List (Str × PyVal)) : Option PyVal :=
  dictGet (toChars "anyOf") d <|> dictGet (toChars "oneOf") d <|> dictGet (toChars "allOf") d

/-- The `properties` entries of a schema dict (empty when absent). -/
def schProps (d : List (Str × PyVal)) : List (Str × PyVal) :=
  match dictGet (toChars "properties") d with
  | some (.vDict ps) => ps
  | _ => []

/-- First union branch on which `inner` synthesises an example. -/
def firstBranchExample (inner : PyVal → PyVal → Option PyVal) :
    List PyVal → PyVal → Option PyVal
  | [], _ => none
  | b :: bs, root =>
    match inner b root with
    | some x => some x
    | none => firstBranchExample inner bs root

/-- The final type-based placeholder of the object-property ladder of
`_inner` (string → 示例, integer → 0, number → 0.0, boolean → true,
array → one synthesised/empty item, else 示例). -/
def objFallbackVal (inner : PyVal → PyVal → Option PyVal) (v root : PyVal) : PyVal :=
  let vt := schTypeOf v
  if vt = some (toChars "string") then .vStr (toChars "示例")
  else if vt = some (toChars "integer") then .vInt 0
  else if vt = some (toChars "number") then .vFloat (toChars "0.0")
  else if vt = some (toChars "boolean") then .vBool true
  else if vt = some (toChars "array") then
    let items : PyVal :=
      match v with
      | .vDict vd => (dictGet (toChars "items") vd).getD (.vDict [])
      | _ => .vDict []
    .vList [(inner items root).getD (.vDict [])]
  else .vStr (toChars "示例")

/-- Per-property value ladder of the object branch of `_inner`: recurse,
then try each union branch, then a `$ref` resolution, then the placeholder. -/
def objPropValue (inner : PyVal → PyVal → Option PyVal) (v root : PyVal) : PyVal :=
  match inner v root with
  | some x => x
  | none =>
    let viaUnion : Option PyVal :=
      match v with
      | .vDict vd =>
        match schUnion vd with
        | some (.vList bs) => firstBranchExample inner bs root
        | _ => none
      | _ => none
    match viaUnion with
    | some x => x
    | none =>
      match (if schHas "$ref" v then
               match resolveRef v root with
               | some r => inner r root
               | none => inner v root
             else none) with
      | some x => x
      | none => objFallbackVal inner v root

/-- The object branch of `_inner`: one synthesised value per property. -/
def objProps (inner : PyVal → PyVal → Option PyVal) :
    List (Str × PyVal) → PyVal → List (Str × PyVal)
  | [], _ => []
  | (k, v) :: rest, root => (k, objPropValue inner v root) :: objProps inner rest root

/-- Per-item ladder shared by `prefixItems` and list-shaped `items` of
`_inner`: recurse, then `$ref`, then a type placeholder. -/
def tupleItems (inner : PyVal → PyVal → Option PyVal) :
    List PyVal → PyVal → List PyVal
  | [], _ => []
  | pi :: rest, root =>
    let ie : Option PyVal :=
      match inner pi root with
      | some x => some x
      | none =>
        if schHas "$ref" pi then
          match resolveRef pi root with
          | some r => inner r root
          | none => inner pi root
        else none
    let item :=
      match ie with
      | some x => x
      | none =>
        let vt := schTypeOf pi
        if vt = some (toChars "string") then PyVal.vStr (toChars "示例")
        else if vt = some (toChars "integer") || vt = some (toChars "number") then PyVal.vInt 0
        else PyVal.vStr (toChars "示例")
    item :: tupleItems inner rest root

/-- Property synthesis inside the dict-shaped `items` fallback of `_inner`. -/
def itemsObjProps (inner : PyVal → PyVal → Option PyVal) :
    List (Str × PyVal) → PyVal → List (Str × PyVal)
  | [], _ => []
  | (k, v) :: rest, root =>
    let item :=
      match inner v root with
      | some x => x
      | none =>
        let vt := schTypeOf v
        if vt = some (toChars "string") then PyVal.vStr (toChars "示例")
        else if vt = some (toChars "integer") || vt = some (toChars "number") then PyVal.vInt 0
        else if vt = some (toChars "array") then PyVal.vList []
        else PyVal.vStr (toChars "示例")
    (k, item) :: itemsObjProps inner rest root

/-- The dict-shaped `items` branch of `_inner`: one synthesised item
replicated to `minItems` (at least one). -/
def itemsDictExample (inner : PyVal → PyVal → Option PyVal)
    (d itd : List (Str × PyVal)) (root : PyVal) : PyVal :=
  let ie : Option PyVal :=
    match inner (.vDict itd) root with
    | some x => some x
    | none =>
      if (dictGet (toChars "$ref") itd).isSome then
        match resolveRef (.vDict itd) root with
        | some r => inner r root
        | none => inner (.vDict itd) root
      else none
  let item : PyVal :=
    match ie with
    | some x => x
    | none =>
      if (dictGet (toChars "properties") itd).isSome ||
         (dictGet (toChars "$ref") itd).isSome then
        .vDict (itemsObjProps inner (schProps itd) root)
      else .vDict []
  let minItems : Nat :=
    match dictGet (toChars "minItems") d with
    | some (.vInt (Int.ofNat n)) => n
    | _ => 1
  .vList (List.replicate (minItems.max 1) item)

/-- The array branch of `_inner`. -/
def arrExample (inner : PyVal → PyVal → Option PyVal)
    (d : List (Str × PyVal)) (root : PyVal) : Option PyVal :=
  match dictGet (toChars "prefixItems") d with
  | some (.vList pis) => some (.vList (tupleItems inner pis root))
  | _ =>
    match dictGet (toChars "items") d with
    | some (.vList its) => some (.vList (tupleItems inner its root))
    | some (.vDict itd) => some (itemsDictExample inner d itd root)
    | _ => some (.vList [])

/-- The `type`-directed tail of `_inner`: object / array / scalar leaves,
with `date`-formatted strings becoming today's date, `integer` 42, `number`
3.14, `boolean` true. -/
def schemaByType (today : Str) (inner : PyVal → PyVal → Option PyVal)
    (d : List (Str × PyVal)) (root : PyVal) : Option PyVal :=
  let t0 : Option Str :=
    match dictGet (toChars "type") d with
    | some (.vStr t) => some t
    | _ => none
  let t : Option Str :=
    if t0.isNone &&
       ((dictGet (toChars "properties") d).isSome ||
        (dictGet (toChars "$defs") d).isSome ||
        (dictGet (toChars "definitions") d).isSome)
    then some (toChars "object") else t0
  if t = some (toChars "object") then some (.vDict (objProps inner (schProps d) root))
  else if t = some (toChars "array") then arrExample inner d root
  else if t = some (toChars "string") then
    match dictGet (toChars "format") d with
    | some (.vStr f) =>
      if f = toChars "date" then some (.vStr today) else some (.vStr (toChars "示例内容"))
    | _ => some (.vStr (toChars "示例内容"))
  else if t = some (toChars "integer") then some (.vInt 42)
  else if t = some (toChars "number") then some (.vFloat (toChars "3.14"))
  else if t = some (toChars "boolean") then some (.vBool true)
  else none

/-- `_inner` of `_schema_to_example`: prefer `examples`/`default`, follow a
usable `$ref`, take the first union branch, prefer `enum`, else synthesise by
type via `schemaByType`. -/
def schemaExample (today : Str) : Nat → PyVal → PyVal → Option PyVal
  | 0, _, _ => none
  | fuel + 1, sch, root =>
    match sch with
    | .vDict d =>
      match dictGet (toChars "examples") d with
      | some (.vList (e :: _)) => some e
      | _ =>
        match dictGet (toChars "default") d with
        | some v => some v
        | none =>
          match (if (dictGet (toChars "$ref") d).isSome then resolveRef sch root else none) with
          | some resolved => schemaExample today fuel resolved root
          | none =>
            match schUnion d with
            | some (.vList (b :: _)) => schemaExample today fuel b root
            | _ =>
              match dictGet (toChars "enum") d with
              | some (.vList (e :: _)) => some e
              | _ => schemaByType today (schemaExample today fuel) d root
    | _ => none

/-- `_schema_to_example(schema, model_cls)`: synthesise, then defensively
re-validate against the pydantic model (failure discards the example). -/
def schemaToExample (today : Str) (schema : PyVal) (model : Option PyFieldType) : Option PyVal :=
  match schemaExample today schemaFuel schema schema with
  | none => none
  | some ex =>
    match model with
    | none => some ex
    | some m =>
      match modelValidate schemaFuel m ex with
      | some _ => some ex
      | none => none

/-- Default pydantic property title for a field name (our fields are single
lowercase words: capitalise the first letter). -/
def pyTitle (name : Str) : Str :=
  match name with
  | c :: r => c.toUpper :: r
  | [] => []

/-- The JSON-schema node for a list item annotation (no title). -/
def schemaItemNode : PyFieldType → PyVal
  | .pInt => .vDict [(toChars "type", .vStr (toChars "integer"))]
  | .pFloat => .vDict [(toChars "type", .vStr (toChars "number"))]
  | .pStr => .vDict [(toChars "type", .vStr (toChars "string"))]
  | .pDate => .vDict [(toChars "format", .vStr (toChars "date")), (toChars "type", .vStr (toChars "string"))]
  | .pBool => .vDict [(toChars "type", .vStr (toChars "boolean"))]
  | .pDict => .vDict [(toChars "additionalProperties", .vBool true), (toChars "type", .vStr (toChars "object"))]
  | .pAny => .vDict []
  | .pList e => .vDict [(toChars "items", schemaItemNode e), (toChars "type", .vStr (toChars "array"))]
  | .pModel n _ => .vDict [(toChars "$ref", .vStr (toChars "#/$defs/" ++ n))]

/-- The JSON-schema node pydantic generates for a model property. -/
def fieldSchemaNode (title : Str) : PyFieldType → PyVal
  | .pInt => .vDict [(toChars "title", .vStr title), (toChars "type", .vStr (toChars "integer"))]
  | .pFloat => .vDict [(toChars "title", .vStr title), (toChars "type", .vStr (toChars "number"))]
  | .pStr => .vDict [(toChars "title", .vStr title), (toChars "type", .vStr (toChars "string"))]
  | .pDate => .vDict [(toChars "format", .vStr (toChars "date")), (toChars "title", .vStr title), (toChars "type", .vStr (toChars "string"))]
  | .pBool => .vDict [(toChars "title", .vStr title), (toChars "type", .vStr (toChars "boolean"))]
  | .pDict => .vDict [(toChars "additionalProperties", .vBool true), (toChars "title", .vStr title), (toChars "type", .vStr (toChars "object"))]
  | .pAny => .vDict [(toChars "title", .vStr title)]
  | .pList e => .vDict [(toChars "items", schemaItemNode e), (toChars "title", .vStr title), (toChars "type", .vStr (toChars "array"))]
  | .pModel n _ => .vDict [(toChars "$ref", .vStr (toChars "#/$defs/" ++ n))]

/-- The entries of `model_json_schema()` for one model, without `$defs`. -/
def modelSchemaEntries (nm : Str) (fs : List (Str × PyFieldType)) : List (Str × PyVal) :=
  [(toChars "properties",
    .vDict (fs.map (fun kv => (kv.1, fieldSchemaNode (pyTitle kv.1) kv.2)))),
   (toChars "required", .vList (fs.map (fun kv => PyVal.vStr kv.1))),
   (toChars "title", .vStr nm),
   (toChars "type", .vStr (toChars "object"))]

mutual

/-- Nested-model `$defs` entries referenced from a field annotation. -/
def collectFromFT : PyFieldType → List (Str × PyVal)
  | .pList e => collectFromFT e
  | .pModel n fs => (n, .vDict (modelSchemaEntries n fs)) :: collectFromFields fs
  | _ => []

/-- Nested-model `$defs` entries referenced from a field list. -/
def collectFromFields : List (Str × PyFieldType) → List (Str × PyVal)
  | [] => []
  | (_, ft) :: rest => collectFromFT ft ++ collectFromFields rest

end

/-- `BaseModel.model_json_schema()` for the modelled schema graph: the
model's object schema, preceded by a `$defs` table when nested models are
referenced. -/
def modelJsonSchema (nm : Str) (fs : List (Str × PyFieldType)) : PyVal :=
  let defs := (collectFromFields fs).foldl (fun acc kv => dictSet kv.1 kv.2 acc) []
  if defs.isEmpty then .vDict (modelSchemaEntries nm fs)
  else .vDict ((toChars "$defs", PyVal.vDict defs) :: modelSchemaEntries nm fs)

/-- `re.sub(rf"\x7b\x7b{name}:[^\x7d]+\x7d\x7d", value, example)`: replace
every `\x7bname:...\x7d` placeholder occurrence by the example value (the
values substituted here contain no backslashes, so Python's
replacement-escape processing is the identity). -/
def regexSubField (name value : Str) : Nat → Str → Str
  | 0, s => s
  | _ + 1, [] => []
  | fuel + 1, c :: rest =>
    if c = lbrace && startsWithAt rest (name ++ [':']) then
      let after := rest.drop (name.length + 1)
      let content := after.takeWhile (fun x => x ≠ rbrace)
      if content.isEmpty then c :: regexSubField name value fuel rest
      else
        match after.drop content.length with
        | x :: rr =>
          if x = rbrace then value ++ regexSubField name value fuel rr
          else c :: regexSubField name value fuel rest
        | [] => c :: regexSubField name value fuel rest
    else c :: regexSubField name value fuel rest

/-- The per-field example value ladder of `get_format_instructions`
(`today` models `datetime.date.today().isoformat()`, consulted through
`_schema_to_example` for model-typed fields). -/
def exampleValueFor (today : Str) (ft : FieldType) : Str :=
  match ft with
  | .fModel m =>
    match m with
    | .pModel nm fs =>
      match schemaToExample today (modelJsonSchema nm fs) (some m) with
      | some ex => jsonDumps ex
      | none => jsonDumps (.vDict (fs.map (fun kv => (kv.1, PyVal.vStr (toChars "示例值")))))
    | _ => toChars "示例内容"
  | .fListStr => toChars "[\"A\", \"B\"]"
  | .fListInt => toChars "[1, 2]"
  | .fDict => toChars "\x7b\"key\": \"value\"\x7d"
  | .fAny => toChars "\x7b\"foo\": \"bar\", \"num\": 1\x7d"
  | .fInt => toChars "42"
  | .fFloat => toChars "3.14"
  | .fBool => toChars "true"
  | .fStr _ => toChars "示例内容"

/-- The placeholder-substitution loop of `get_format_instructions`. -/
def substFields (today : Str) : List (Str × FieldType) → Str → Str
  | [], ex => ex
  | (name, ft) :: rest, ex =>
    substFields today rest (regexSubField name (exampleValueFor today ft) (ex.length + 1) ex)

/-- The schema appendix of `get_format_instructions` (one dumped
`model_json_schema()` per registered model). -/
def schemaAppendix : List (Str × PyFieldType) → Str
  | [] => []
  | (mn, ft) :: rest =>
    (match ft with
     | .pModel nm fs => mn ++ toChars " 的 schema:\n" ++ jsonDumps (modelJsonSchema nm fs) ++ toChars "\n"
     | _ => []) ++ schemaAppendix rest

/-- `TemplateParser.get_format_instructions`, with the ambient current date
made an explicit argument (`datetime.date.today().isoformat()` is consulted
by `_schema_to_example` for date-formatted string fields). -/
def TemplateParser.get_format_instructions (p : TemplateParser) (today : Str) : Str :=
  let header : Str :=
    toChars "请严格按照如下格式输出，直接输出指定输出格式的内容，不要输出任何解释或者思考的文本：\n" ++
    toChars "变量值需替换模板中的变量定义部分（如 \x7bname:str\x7d），其他内容保持所有字符完全一致，包括所有标点符号及其中英文差别\n" ++
    toChars "例如：\"姓名=\x7bname:str\x7d，年龄=\x7bage:int\x7d。\"替换为\"姓名=张三，年龄=18。\"\n" ++
    toChars "如遇 json 类型变量，请直接嵌入合法 JSON，特殊字符需正确转义，需严格符合指定的 schema 格式。\n\n" ++
    toChars "模板如下：\n" ++
    p.template ++ toChars "\n\n" ++
    toChars "输出的格式示例如下：\n"
  let base := header ++ substFields today p.fields p.template
  if p.modelMap.isEmpty then base
  else base ++ toChars "\n所有可用 json 类型变量的 schema 如下：\n" ++ schemaAppendix p.modelMap

/-- The repository's `RowModel` (`foo: str`, `num: int`). -/
def RowModelFields : List (Str × PyFieldType) :=
  [(toChars "foo", .pStr), (toChars "num", .pInt)]

/-- The repository's `RowModel` as a schema node. -/
def RowModel : PyFieldType := .pModel (toChars "RowModel") RowModelFields

/-- The repository's `TableModel` fields (`rows: List[RowModel]`). -/
def TableModelFields : List (Str × PyFieldType) :=
  [(toChars "rows", .pList RowModel)]

/-- The repository's `TableModel` as a schema node. -/
def TableModel : PyFieldType := .pModel (toChars "TableModel") TableModelFields

/-- `TableParser(TableModel, value_only, skip_on_type_error)`. -/
def tableTP (vo skip : Bool) : TableParser :=
  TableParser.build (toChars "TableModel") TableModelFields vo skip

/-- The repository's `MyModel` (`foo: str`, `num: str`). -/
def MyModelFields : List (Str × PyFieldType) :=
  [(toChars "foo", .pStr), (toChars "num", .pStr)]

/-- A pydantic model with one `datetime.date` field, whose JSON schema
renders as a date-formatted string. -/
def DateModelFields : List (Str × PyFieldType) := [(toChars "d", .pDate)]

/-- Parser for the spec's anchor-robustness template
`姓名=\x7bname:str\x7d，年龄=\x7bage:int\x7d。`. -/
def nameAgeP : TemplateParser :=
  TemplateParser.build (toChars "姓名=\x7bname:str\x7d，年龄=\x7bage:int\x7d。") []

/-- Parser whose final field is `dict`-typed with an empty trailing literal. -/
def dictEndP : TemplateParser :=
  TemplateParser.build (toChars "数据=\x7bd:dict\x7d") []

/-- Parser with a bool field. -/
def boolP : TemplateParser :=
  TemplateParser.build (toChars "激活=\x7bactive:bool\x7d。") []

/-- Parser with a `list[str]` field. -/
def listStrP : TemplateParser :=
  TemplateParser.build (toChars "标签=\x7btags:list[str]\x7d。") []

/-- Parser with a `list[int]` field. -/
def listIntP : TemplateParser :=
  TemplateParser.build (toChars "数字=\x7bns:list[int]\x7d。") []

/-- Parser with a `dict` field and a non-empty trailing literal. -/
def dictMidP : TemplateParser :=
  TemplateParser.build (toChars "配置=\x7bc:dict\x7d。") []

/-- Parser whose leading literal `aa` can overlap itself. -/
def aaP : TemplateParser := TemplateParser.build (toChars "aa\x7bx:int\x7d") []

/-- Parser used by the retry-controller stub. -/
def ageP : TemplateParser := TemplateParser.build (toChars "年龄=\x7bage:int\x7d。") []

/-- The retry stub provider: invalid output on the first two invocations,
valid output from the third on. -/
def stubOut : Nat → Str := fun k => if k ≥ 2 then toChars "年龄=18。" else toChars "x"

/-- The retry stub's validator: the real `ageP.validate`. -/
def stubV : Str → Except PyRaise TPResult := fun s => ageP.validate s

/-- Parser over a registry containing a date-formatted schema field. -/
def dateP : TemplateParser :=
  TemplateParser.build (toChars "日期=\x7bd:json:DateModel\x7d")
    [(toChars "DateModel", .pModel (toChars "DateModel") DateModelFields)]

/-- Parser over the `MyModel` registry (no date fields anywhere). -/
def myModelP : TemplateParser :=
  TemplateParser.build (toChars "模型=\x7bmodel:json:MyModel\x7d")
    [(toChars "MyModel", .pModel (toChars "MyModel") MyModelFields)]

/-- Success flag of a validate outcome (`none` when the call raised). -/
def resultSuccess : Except PyRaise TPResult → Option Bool
  | .ok r => some r.success
  | .error _ => none

/-- Modelled from the spec's words (§4.3): the candidate window for one
occurrence of the leading literal — it ends at the *last* occurrence of the
trailing literal at or after the anchor, or at end of input when the trailing
literal is empty; no window when the trailing literal never occurs there. -/
def claimWindow (out endS : Str) (o : Nat) : Option Str :=
  if endS.isEmpty then some (out.drop o)
  else
    match rfindFrom out endS o with
    | none => none
    | some e => some (pySlice out o (e + endS.length))

/-- Modelled from the spec's words: the candidate windows of every
left-to-right (non-overlapping, scan-resumes-after-match) occurrence of the
leading literal, in order. -/
def claimCandidates (p : TemplateParser) (out : Str) : List Str :=
  (findAllNonOverlapping out (p.segments.headD [])).filterMap
    (claimWindow out (p.segments.getLastD []))

/-- Modelled from the claim's literal words: the candidate windows of every
occurrence of the leading literal, including self-overlapping ones. -/
def claimCandidatesAllOcc (p : TemplateParser) (out : Str) : List Str :=
  (allOccurrences out (p.segments.headD [])).filterMap
    (claimWindow out (p.segments.getLastD []))

/-- Modelled from the spec's words: try the candidate windows in order;
return the first successful parse; when all fail, return the failure of the
last attempted candidate with its window; when there is no candidate at all,
report the anchor as not found with no matched window. -/
def claimTry (p : TemplateParser) (startS endS : Str) : List Str → Except PyRaise TPResult
  | [] => .ok ⟨false, .err (.anchorNotFound startS endS), none⟩
  | c :: rest =>
    match tryParseAttempt p c with
    | .error r => .error r
    | .ok (.ok d) => .ok ⟨true, .fields d, some c⟩
    | .ok (.error e) =>
      match rest with
      | [] => .ok ⟨false, .err e, some c⟩
      | _ :: _ => claimTry p startS endS rest

/-- C1: the claim says `validate` never raises and returns every per-attempt
error as data; but for a template whose trailing literal is empty and whose
final field is dict-typed, an input whose captured text does not start with a
brace reaches `result[name] = value` with `value` never assigned, and the
resulting `UnboundLocalError` is not caught by `validate`'s
`except (ValidationError, ValueError)` — the exception escapes to the
caller.  Evaluating the code at the failing input: -/
theorem c1_validate_raises_unbound :
    dictEndP.validate (toChars "数据=abc") = .error .unboundLocalError := rfl

/-- C3 counterexample: compiling a template with two placeholders named `a`
does not fail — `parse_template` returns normally with the two fields merged
into one (the `fields` dict has a single entry) while all three literal
segments are kept, so no `CompileError` is raised at construction. -/
theorem c3_duplicate_fields_merge :
    (parse_template (toChars "\x7ba:int\x7dx\x7ba:str\x7d") []).1.length = 1 ∧
    (parse_template (toChars "\x7ba:int\x7dx\x7ba:str\x7d") []).2.length = 3 :=
  ⟨rfl, rfl⟩

/-- C3 amended: compiling a template with duplicate field names succeeds
silently; the duplicates are merged into a single field keeping the first
position and the last placeholder's type (`a:str` wins over `a:int`), while
`segments` keeps one boundary per placeholder — breaking the
`len(segments) == len(fields) + 1` invariant. -/
theorem c3_duplicate_fields_result :
    (TemplateParser.build (toChars "\x7ba:int\x7dx\x7ba:str\x7d") []).fields
        = [(toChars "a", .fStr none)] ∧
    (TemplateParser.build (toChars "\x7ba:int\x7dx\x7ba:str\x7d") []).segments
        = [[], toChars "x", []] :=
  ⟨rfl, rfl⟩

/-- C4 counterexample: the claim says a bool token outside
true/1/false/0 is preserved exactly and never by itself causes failure; but
the `DynamicModel` validation step coerces the token `yes` to `True` (not
preserved) and rejects the token `maybe` (validate reports failure). -/
theorem c4_bool_other_tokens :
    boolP.validate (toChars "激活=maybe。")
        = .ok ⟨false, .err (.validationError (toChars "active")), some (toChars "激活=maybe。")⟩ ∧
    boolP.validate (toChars "激活=yes。")
        = .ok ⟨true, .fields [(toChars "active", .vBool true)], some (toChars "激活=yes。")⟩ :=
  ⟨rfl, rfl⟩

/-- C4 amended: `strict_parse_llm_output` converts bool tokens
case-insensitively (`true`/`1` → true, `false`/`0` → false) and leaves other
tokens unconverted, but the subsequent `DynamicModel` (pydantic) validation
then coerces the additional spellings `yes`/`no`/`y`/`n`/`t`/`f`/`on`/`off`
(case-insensitively) and makes `validate` report failure for any other
token. -/
theorem c4_bool_conversion :
    boolP.validate (toChars "激活=TRUE。")
        = .ok ⟨true, .fields [(toChars "active", .vBool true)], some (toChars "激活=TRUE。")⟩ ∧
    boolP.validate (toChars "激活=1。")
        = .ok ⟨true, .fields [(toChars "active", .vBool true)], some (toChars "激活=1。")⟩ ∧
    boolP.validate (toChars "激活=False。")
        = .ok ⟨true, .fields [(toChars "active", .vBool false)], some (toChars "激活=False。")⟩ ∧
    boolP.validate (toChars "激活=0。")
        = .ok ⟨true, .fields [(toChars "active", .vBool false)], some (toChars "激活=0。")⟩ ∧
    boolP.validate (toChars "激活=no。")
        = .ok ⟨true, .fields [(toChars "active", .vBool false)], some (toChars "激活=no。")⟩ ∧
    boolP.validate (toChars "激活=maybe。")
        = .ok ⟨false, .err (.validationError (toChars "active")), some (toChars "激活=maybe。")⟩ :=
  ⟨rfl, rfl, rfl, rfl, rfl, rfl⟩

/-- C5 counterexample: the claim says an undecodable `list[str]` capture is
retained as the raw string and the parse still succeeds; but `validate`
reports failure (the `DynamicModel` validation rejects a plain string for a
list-typed field). -/
theorem c5_list_decode_failure_fails :
    listStrP.validate (toChars "标签=abc。")
        = .ok ⟨false, .err (.validationError (toChars "tags")), some (toChars "标签=abc。")⟩ :=
  rfl

/-- C5 amended: on decode failure the conversion step of
`strict_parse_llm_output` does retain the raw captured string unchanged, but
the subsequent `DynamicModel` validation rejects a plain string for the
declared `list[str]` / `list[int]` / `dict` container type, so `validate`
reports failure rather than succeeding with the raw string. -/
theorem c5_list_dict_decode_failure :
    strict_parse_llm_output listStrP (toChars "标签=abc。")
        = .ok (.ok [(toChars "tags", .vStr (toChars "abc"))]) ∧
    listStrP.validate (toChars "标签=abc。")
        = .ok ⟨false, .err (.validationError (toChars "tags")), some (toChars "标签=abc。")⟩ ∧
    listIntP.validate (toChars "数字=oops。")
        = .ok ⟨false, .err (.validationError (toChars "ns")), some (toChars "数字=oops。")⟩ ∧
    dictMidP.validate (toChars "配置=abc。")
        = .ok ⟨false, .err (.validationError (toChars "c")), some (toChars "配置=abc。")⟩ :=
  ⟨rfl, rfl, rfl, rfl⟩

/-- C9 counterexample: constructing a `TableParser` from a table model with
no list-of-record field does not fail — construction returns normally with
the table field left undetermined (`None`). -/
theorem c9_no_list_field_constructs :
    (TableParser.build (toChars "NoList") [(toChars "x", .pInt)] true true).tableField = none :=
  rfl

/-- C9 amended: `TableParser.__init__` performs no existence or uniqueness
check on the list-of-record field: with none, construction succeeds with the
table field `None`; with exactly one it is found; with several, the last in
declaration order silently wins. -/
theorem c9_table_field_selection :
    (TableParser.build (toChars "NoList") [(toChars "x", .pInt)] true true).tableField = none ∧
    (tableTP true true).tableField = some (toChars "rows") ∧
    (TableParser.build (toChars "TwoLists")
        [(toChars "r1", .pList RowModel), (toChars "r2", .pList RowModel)] true true).tableField
      = some (toChars "r2") :=
  ⟨rfl, rfl, rfl⟩

/-- C8: table value-only fault isolation — the two-row input validates to
exactly the two typed rows; a wrong-arity row is dropped and the table still
reports success with zero rows; a coercion-failing row is likewise dropped
when `skip_on_type_error` is set and raises (`ValueError` escaping
`validate`) when it is not. -/
theorem c8_value_only_fault_isolation :
    (∃ m, (tableTP true true).validate (toChars "\x7b \x7b\"A\",1\x7d, \x7b\"B\",2\x7d \x7d")
        = .ok ⟨true, .fields [(toChars "table", .vDict [(toChars "rows", .vList
            [.vDict [(toChars "foo", .vStr (toChars "A")), (toChars "num", .vInt 1)],
             .vDict [(toChars "foo", .vStr (toChars "B")), (toChars "num", .vInt 2)]])])], m⟩) ∧
    (∃ m, (tableTP true true).validate (toChars "\x7b \x7b\"A\"\x7d \x7d")
        = .ok ⟨true, .fields [(toChars "table", .vDict [(toChars "rows", .vList [])])], m⟩) ∧
    (∃ m, (tableTP true true).validate (toChars "\x7b \x7b\"A\",\"x\"\x7d \x7d")
        = .ok ⟨true, .fields [(toChars "table", .vDict [(toChars "rows", .vList [])])], m⟩) ∧
    (tableTP true false).validate (toChars "\x7b \x7b\"A\",\"x\"\x7d \x7d") = .error .valueError :=
  ⟨⟨_, rfl⟩, ⟨_, rfl⟩, ⟨_, rfl⟩, rfl⟩

/-- C7 counterexample: `get_format_instructions` is not a pure function of
(template, schema registry) — for a registry containing a date-formatted
string field it consults the ambient current date
(`datetime.date.today()` in `_schema_to_example`), so two calls made on
different dates return different strings. -/
theorem c7_date_impurity :
    dateP.get_format_instructions (toChars "2026-01-01")
      ≠ dateP.get_format_instructions (toChars "2026-01-02") := by decide

/-- C7 amended: `get_format_instructions` is pure given (template, schema
registry, current date): with no date-formatted field anywhere in the
registry the output does not depend on the date at all (repeated calls are
byte-identical across dates), while a date-formatted string field embeds the
current date in the synthesised example, so calls on different dates
differ. -/
theorem c7_instructions_pure_given_date :
    myModelP.get_format_instructions (toChars "2026-01-01")
      = myModelP.get_format_instructions (toChars "2026-01-02") ∧
    dateP.get_format_instructions (toChars "2026-01-01")
      = dateP.get_format_instructions (toChars "2026-01-01") ∧
    dateP.get_format_instructions (toChars "2026-01-01")
      ≠ dateP.get_format_instructions (toChars "2026-01-02") :=
  ⟨by decide, by decide, by decide⟩

/-- C2 counterexample: the claim's "every left-to-right occurrence of the
leading literal" reading fails for a self-overlapping anchor: in `aaa1` the
literal `aa` occurs at offsets 0 and 1, and trying the offset-1 window `aa1`
parses successfully (x = 1), so the claim's enumeration succeeds — but the
code enumerates `re.finditer`'s non-overlapping occurrences (offset 0 only)
and returns failure. -/
theorem c2_overlap_counterexample :
    aaP.validate (toChars "aaa1")
        = .ok ⟨false, .err (.endIntInvalid (toChars "x")), some (toChars "aaa1")⟩ ∧
    claimTry aaP (toChars "aa") [] (claimCandidatesAllOcc aaP (toChars "aaa1"))
        = .ok ⟨true, .fields [(toChars "x", .vInt 1)], some (toChars "aa1")⟩ :=
  ⟨rfl, rfl⟩

/-- Invariant of the retry loop: the parse result in hand always came from
the most recent provider invocation, and at most `rem` further invocations
happen. -/
theorem parseTemplateRetry_bound (v : Str → Except PyRaise TPResult) (invoke : Nat → Str) :
    ∀ (rem k : Nat) (p r : TPResult) (n : Nat),
      v (invoke (k - 1)) = .ok p →
      parseTemplateRetry v invoke rem k p = .ok (r, n) →
      n ≤ k + rem ∧ v (invoke (n - 1)) = .ok r := by
  intro rem
  induction rem with
  | zero =>
    intro k p r n hinv h
    simp only [parseTemplateRetry] at h
    obtain ⟨hp, hk⟩ := Prod.mk.injEq .. ▸ (Except.ok.injEq .. ▸ h)
    subst hp; subst hk
    exact ⟨Nat.le_refl _, hinv⟩
  | succ rem ih =>
    intro k p r n hinv h
    by_cases hs : p.success
    · simp only [parseTemplateRetry, hs, if_true] at h
      obtain ⟨hp, hk⟩ := Prod.mk.injEq .. ▸ (Except.ok.injEq .. ▸ h)
      subst hp; subst hk
      exact ⟨Nat.le_add_right _ _, hinv⟩
    · simp only [parseTemplateRetry, hs, if_false] at h
      cases hvk : v (invoke k) with
      | error e => rw [hvk] at h; exact absurd h (by simp)
      | ok p' =>
        rw [hvk] at h
        have hres := ih (k + 1) p' r n (by simpa using hvk) h
        exact ⟨by omega, hres.2⟩

/-- C6: with the stub provider whose first two outputs fail validation and
whose third validates, `max_retry = 2` yields success after exactly 3
invocations and `max_retry = 1` yields failure after exactly 2 invocations
(the returned result being the validation of the last attempted output, so
it carries that attempt's error text and window); in general the entry point
performs at most `max_retry + 1` invocations and returns the validation
result of the last one. -/
theorem c6_retry_bound :
    resultSuccess (stubV (stubOut 0)) = some false ∧
    resultSuccess (stubV (stubOut 1)) = some false ∧
    resultSuccess (stubV (stubOut 2)) = some true ∧
    (∃ r, chatModelCall stubV stubOut 2 = .ok (r, 3) ∧ r.success = true) ∧
    (∃ r, chatModelCall stubV stubOut 1 = .ok (r, 2) ∧ r.success = false ∧
          ageP.validate (stubOut 1) = .ok r) ∧
    (∀ (v : Str → Except PyRaise TPResult) (invoke : Nat → Str) (m : Nat) (r : TPResult) (n : Nat),
        chatModelCall v invoke m = .ok (r, n) → n ≤ m + 1 ∧ v (invoke (n - 1)) = .ok r) := by
  refine ⟨rfl, rfl, rfl, ⟨_, rfl, rfl⟩, ⟨_, rfl, rfl, rfl⟩, ?_⟩
  intro v invoke m r n h
  unfold chatModelCall at h
  cases hv0 : v (invoke 0) with
  | error e => rw [hv0] at h; exact absurd h (by simp)
  | ok p =>
    rw [hv0] at h
    have hres := parseTemplateRetry_bound v invoke m 1 p r n (by simpa using hv0) h
    exact ⟨by omega, hres.2⟩

/-- Witness for the general retry bound, at the stub with `max_retry = 2`. -/
theorem c6_retry_bound_witness :
    3 ≤ 2 + 1 ∧ stubV (stubOut (3 - 1))
        = .ok ⟨true, .fields [(toChars "age", .vInt 18)], some (toChars "年龄=18。")⟩ :=
  c6_retry_bound.2.2.2.2.2 stubV stubOut 2 _ 3 rfl

/-- The code's per-occurrence window rule is exactly the spec's described
rule. -/
theorem candidateAt_eq_claimWindow (out endS : Str) (o : Nat) :
    candidateAt out endS o = claimWindow out endS o := rfl

/-- The anchor loop of `validate`, with any accumulated last error/window,
equals the spec-described first-success / last-failure / anchor-not-found
selection over the remaining candidate windows. -/
theorem validateLoop_claimTry (p : TemplateParser) (out startS endS : Str) :
    ∀ (occs : List Nat) (e? : Option PyErr) (c? : Option Str),
      validateLoop p out startS endS occs e? c? =
        (match occs.filterMap (claimWindow out endS), e? with
         | [], some e => .ok ⟨false, .err e, c?⟩
         | [], none => .ok ⟨false, .err (.anchorNotFound startS endS), none⟩
         | c :: cs, _ => claimTry p startS endS (c :: cs)) := by
  intro occs
  induction occs with
  | nil => intro e? c?; cases e? <;> rfl
  | cons o rest ih =>
    intro e? c?
    rw [validateLoop, candidateAt_eq_claimWindow]
    cases hcw : claimWindow out endS o with
    | none => simp only [List.filterMap_cons, hcw]; exact ih e? c?
    | some cand =>
      simp only [List.filterMap_cons, hcw]
      cases hat : tryParseAttempt p cand with
      | error r => simp [claimTry, hat]
      | ok inner =>
        cases inner with
        | ok d => simp [claimTry, hat]
        | error e =>
          show validateLoop p out startS endS rest (some e) (some cand) =
            claimTry p startS endS (cand :: rest.filterMap (claimWindow out endS))
          rw [ih (some e) (some cand)]
          cases hcs : rest.filterMap (claimWindow out endS) with
          | nil => simp [claimTry, hat, hcs]
          | cons c2 cs2 => simp [claimTry, hat, hcs]

/-- C2 amended: when the template's leading literal is non-empty, `validate`
equals the spec-described selection — enumerate the left-to-right
**non-overlapping** occurrences of the leading literal in the markup-stripped
input (each search resumes past the previous match, as `re.finditer` does),
window each by the last trailing-literal occurrence at or after it (to end of
input when the trailing literal is empty; skip the occurrence when there is
none), try the windows in order returning the first success, else the last
attempted window's error and window, else anchor-not-found with no window —
and in particular the spec's anchor-robustness example succeeds with
name = 张三 and age = 18. -/
theorem c2_anchor_enumeration :
    (∀ (p : TemplateParser) (raw : Str), (p.segments.headD []).isEmpty = false →
        p.validate raw = claimTry p (p.segments.headD []) (p.segments.getLastD [])
          (claimCandidates p (stripThinkTags raw))) ∧
    nameAgeP.validate (toChars "前言文字姓名=张三，年龄=18。后记")
        = .ok ⟨true, .fields [(toChars "name", .vStr (toChars "张三")), (toChars "age", .vInt 18)],
               some (toChars "姓名=张三，年龄=18。")⟩ := by
  constructor
  · intro p raw h
    unfold TemplateParser.validate
    simp only [h, Bool.false_eq_true, if_false]
    rw [validateLoop_claimTry]
    unfold claimCandidates
    cases hcs : (findAllNonOverlapping (stripThinkTags raw) (p.segments.headD [])).filterMap
        (claimWindow (stripThinkTags raw) (p.segments.getLastD [])) with
    | nil => rfl
    | cons c cs => rfl
  · rfl

/-- Witness for C2's enumeration equality at the spec's anchor-robustness
input. -/
theorem c2_anchor_enumeration_witness :
    (nameAgeP.segments.headD []).isEmpty = false ∧
    nameAgeP.validate (toChars "前言文字姓名=张三，年龄=18。后记")
      = claimTry nameAgeP (nameAgeP.segments.headD []) (nameAgeP.segments.getLastD [])
          (claimCandidates nameAgeP (stripThinkTags (toChars "前言文字姓名=张三，年龄=18。后记"))) :=
  ⟨rfl, c2_anchor_enumeration.1 nameAgeP _ rfl⟩

/-- A list-typed annotation validates only to a list. -/
theorem modelValidate_list_shape (fuel : Nat) (e : PyFieldType) (v w : PyVal)
    (h : modelValidate fuel (.pList e) v = some w) : ∃ ys, w = .vList ys := by
  cases fuel with
  | zero => simp [modelValidate] at h
  | succ fuel =>
    cases v with
    | vList xs =>
      simp only [modelValidate] at h
      obtain ⟨ys, _, hw⟩ := Option.map_eq_some'.mp h
      exact ⟨ys, hw.symm⟩
    | vNone => simp [modelValidate] at h
    | vBool b => simp [modelValidate] at h
    | vInt n => simp [modelValidate] at h
    | vFloat l => simp [modelValidate] at h
    | vStr s => simp [modelValidate] at h
    | vDict dd => simp [modelValidate] at h

/-- A value validating against `TableModel` dumps to a dict whose single
entry is the `rows` list. -/
theorem modelValidate_tableModel_shape (fuel : Nat) (v w : PyVal)
    (h : modelValidate fuel TableModel v = some w) :
    ∃ ys, w = .vDict [(toChars "rows", .vList ys)] := by
  cases fuel with
  | zero => simp [modelValidate] at h
  | succ fuel =>
    cases v with
    | vDict d =>
      simp only [TableModel, TableModelFields, modelValidate] at h
      rw [List.mapM_cons, List.mapM_nil] at h
      cases hg : dictGet (toChars "rows") d with
      | none => simp [hg] at h
      | some rv =>
        cases hmv : modelValidate fuel (.pList RowModel) rv with
        | none => simp [hg, hmv] at h
        | some w' =>
          simp [hg, hmv] at h
          obtain ⟨ys, hw'⟩ := modelValidate_list_shape fuel RowModel rv w' hmv
          subst hw'
          exact ⟨ys, by first | exact h | exact h.symm⟩
    | vNone => simp [modelValidate, TableModel, TableModelFields] at h
    | vBool b => simp [modelValidate, TableModel, TableModelFields] at h
    | vInt n => simp [modelValidate, TableModel, TableModelFields] at h
    | vFloat l => simp [modelValidate, TableModel, TableModelFields] at h
    | vStr s => simp [modelValidate, TableModel, TableModelFields] at h
    | vList xs => simp [modelValidate, TableModel, TableModelFields] at h

/-- Model-typed dynamic-field coercion succeeds only on dicts, via
`modelValidate`. -/
theorem coerceField_model_shape (m : PyFieldType) (v w : PyVal)
    (h : coerceField (.fModel m) v = some w) :
    ∃ d, v = .vDict d ∧ modelValidate schemaFuel m (.vDict d) = some w := by
  cases v with
  | vDict d => exact ⟨d, rfl, by simpa [coerceField] using h⟩
  | vNone => simp [coerceField] at h
  | vBool b => simp [coerceField] at h
  | vInt n => simp [coerceField] at h
  | vFloat l => simp [coerceField] at h
  | vStr s => simp [coerceField] at h
  | vList xs => simp [coerceField] at h

/-- Inversion of `DynamicModel` validation with a single declared field. -/
theorem dynValidate_single (name : Str) (ft : FieldType) (data : List (Str × PyVal))
    (d : List (Str × PyVal)) (h : dynValidate [(name, ft)] data = .ok d) :
    ∃ v w, dictGet name data = some v ∧ coerceField ft v = some w ∧ d = [(name, w)] := by
  simp only [dynValidate] at h
  cases hg : dictGet name data with
  | none => simp [hg] at h
  | some v =>
    cases hc : coerceField ft v with
    | none => simp [hg, hc] at h
    | some w =>
      simp [hg, hc, dynValidate, Except.map] at h
      exact ⟨v, w, rfl, hc, by first | exact h | exact h.symm⟩

/-- A successful attempt of the table template parser produces exactly the
`table → rows` shape. -/
theorem tableInner_attempt_shape (s : Str) (d : List (Str × PyVal))
    (h : tryParseAttempt (tableTP true true).parser s = .ok (.ok d)) :
    ∃ ys, d = [(toChars "table", .vDict [(toChars "rows", .vList ys)])] := by
  unfold tryParseAttempt at h
  cases hsp : strict_parse_llm_output (tableTP true true).parser s with
  | error r => rw [hsp] at h; exact absurd h (by simp)
  | ok inner =>
    rw [hsp] at h
    cases inner with
    | error e => exact absurd h (by simp)
    | ok data =>
      have hdv : dynValidate [(toChars "table", .fModel TableModel)] data = .ok d := by
        have hfields : (tableTP true true).parser.fields
            = [(toChars "table", .fModel TableModel)] := rfl
        rw [← hfields]; simpa using h
      obtain ⟨v, w, _, hc, hd⟩ := dynValidate_single _ _ data d hdv
      obtain ⟨dd, hv, hmv⟩ := coerceField_model_shape TableModel v w hc
      obtain ⟨ys, hw⟩ := modelValidate_tableModel_shape schemaFuel _ w hmv
      exact ⟨ys, by rw [hd, hw]⟩

/-- A successful run of the table template parser's `validate` (leading
literal empty, so the single full-window attempt) carries exactly the
`table → rows` mapping as its data. -/
theorem tableInnerValidate_shape (s : Str) (r : TPResult)
    (hv : (tableTP true true).parser.validate s = .ok r) (hs : r.success = true) :
    ∃ ys, r.data = .fields [(toChars "table", .vDict [(toChars "rows", .vList ys)])] := by
  unfold TemplateParser.validate at hv
  simp only [show (((tableTP true true).parser.segments.headD []).isEmpty) = true from rfl,
    if_true] at hv
  cases hat : tryParseAttempt (tableTP true true).parser (stripThinkTags s) with
  | error r' => rw [hat] at hv; exact absurd hv (by simp)
  | ok inner =>
    rw [hat] at hv
    cases inner with
    | ok d =>
      obtain ⟨ys, hd⟩ := tableInner_attempt_shape (stripThinkTags s) d hat
      have hr : r = ⟨true, .fields d, some (stripThinkTags s)⟩ := by
        simpa using hv.symm
      exact ⟨ys, by rw [hr, hd]⟩
    | error e =>
      have hr : r = ⟨false, .err e, some (stripThinkTags s)⟩ := by
        simpa using hv.symm
      rw [hr] at hs
      exact absurd hs (by simp)

/-- A successful `TableParser.validate` (either mode) carries exactly the
`table → rows` mapping as its data. -/
theorem tableValidate_success_shape (vo skip : Bool) (input : Str) (r : TPResult)
    (hv : (tableTP vo skip).validate input = .ok r) (hs : r.success = true) :
    ∃ ys, r.data = .fields [(toChars "table", .vDict [(toChars "rows", .vList ys)])] := by
  unfold TableParser.validate at hv
  cases vo with
  | false =>
    simp only [show (tableTP false skip).valueOnly = false from rfl, if_false,
      Bool.false_eq_true] at hv
    exact tableInnerValidate_shape _ r hv hs
  | true =>
    simp only [show (tableTP true skip).valueOnly = true from rfl, if_true] at hv
    cases hpv : (tableTP true skip).parseValueOnly (stripThinkTags input) with
    | error e => rw [hpv] at hv; exact absurd hv (by simp)
    | ok rows =>
      rw [hpv] at hv
      exact tableInnerValidate_shape _ r hv hs

/-- C10: whenever `TableParser.validate` returns a result, `get_rows` also
returns (it does not raise): the empty list when validation failed, and
exactly the row list stored under the table field of the validated data when
it succeeded. -/
theorem c10_get_rows (vo skip : Bool) (input : Str) (r : TPResult)
    (hv : (tableTP vo skip).validate input = .ok r) :
    (r.success = false → (tableTP vo skip).get_rows input = .ok (.vList [])) ∧
    (r.success = true → ∃ ys,
        r.data = .fields [(toChars "table", .vDict [(toChars "rows", .vList ys)])] ∧
        (tableTP vo skip).get_rows input = .ok (.vList ys)) := by
  constructor
  · intro hs
    unfold TableParser.get_rows
    rw [hv]
    simp [hs]
  · intro hs
    obtain ⟨ys, hd⟩ := tableValidate_success_shape vo skip input r hv hs
    refine ⟨ys, hd, ?_⟩
    unfold TableParser.get_rows
    rw [hv]
    simp [hs, hd, dictGet,
      show (tableTP vo skip).tableField = some (toChars "rows") from rfl]

/-- Witness for C10, applying the theorem on both sides of the split: a
failing non-value-only validation yields the empty list, and the successful
two-row value-only validation yields exactly the stored rows. -/
theorem c10_get_rows_witness :
    ((tableTP false true).get_rows (toChars "nope") = .ok (.vList [])) ∧
    (∃ ys, (TPResult.mk true
        (.fields [(toChars "table", .vDict [(toChars "rows", .vList
          [.vDict [(toChars "foo", .vStr (toChars "A")), (toChars "num", .vInt 1)],
           .vDict [(toChars "foo", .vStr (toChars "B")), (toChars "num", .vInt 2)]])])])
        (some (toChars "\x7b\"rows\": [\x7b\"foo\": \"A\", \"num\": 1\x7d, \x7b\"foo\": \"B\", \"num\": 2\x7d]\x7d"))).data
          = .fields [(toChars "table", .vDict [(toChars "rows", .vList ys)])] ∧
        (tableTP true true).get_rows (toChars "\x7b \x7b\"A\",1\x7d, \x7b\"B\",2\x7d \x7d")
          = .ok (.vList ys)) :=
  ⟨(c10_get_rows false true (toChars "nope")
      ⟨false, .err (.jsonNotFound (toChars "table")), some (toChars "nope")⟩ rfl).1 rfl,
   (c10_get_rows true true (toChars "\x7b \x7b\"A\",1\x7d, \x7b\"B\",2\x7d \x7d") _ rfl).2 rfl⟩
